import Mathlib

/-!
Run-time sequencer interface (`src/seq/seq_if.c`): embedding and properties

The interface functions called by generated state-program code are embedded
here as pure functions on an explicit state.  One state set (`SSCB`) is modelled
together with the program (`PROG`) it belongs to.

Modelling conventions
* A binary `epicsEvent` is a `Bool`: `true` = full (signalled / free),
  `false` = empty (taken).
* What other threads and the PV transport do during a call is an explicit
  argument (`SemEnv`, `PvEnv`): whether a semaphore is signalled while the
  caller waits, whether the primitive reports a failure, and the status the
  transport call returns.
* A failed `assert` (process abort) is the result `none`.
* `unsigned` counters are `Nat` reduced modulo `2^32`.
* The times of `seq_delay` are `double` values (`Dbl`): a sum is the exact sum
  rounded to the nearest `double`, ties to even, as IEEE 754 binary64 does.
* Time-outs (`double`) are rationals; only their sign is inspected by the code.
  The time left for the completion wait (`tmo -= after - before`) is not
  tracked: whether that wait succeeds is part of the environment argument.
* The connection state of a channel does not change while one call runs.
* A heap block handed to `free` keeps its last contents and gets the ghost
  mark `freed`; pointers to it are not changed by `free`.
* Calls into the PV transport and wake-ups are appended to ghost logs.
* The value of a variable and an element of a queue are one `Int`; element
  counts and byte sizes are not modelled.
* The completion callback of a get lives outside `seq_if.c`; between calls it
  is the step `getCallback`, which posts the semaphore of a recorded request.
-/

namespace Seq

/-! ## Basic types -/

/-- Status codes of the PV layer (`pvAlarm.h`); values the interface does not
name are collected under `pvStatOTHER`. -/
inductive pvStat where
  | pvStatOK
  | pvStatERROR
  | pvStatDISCONN
  | pvStatTIMEOUT
  | pvStatOTHER (code : Nat)
deriving DecidableEq, Repr

/-- Severity codes of the PV layer (`pvAlarm.h`). -/
inductive pvSevr where
  | pvSevrOK
  | pvSevrMINOR
  | pvSevrMAJOR
  | pvSevrINVALID
deriving DecidableEq, Repr

/-- I/O completion type, `enum compType` of `seqCom.h`. -/
inductive compType where
  | DEFAULT
  | ASYNC
  | SYNC
deriving DecidableEq, Repr

/-- Result of waiting on an `epicsEvent`. -/
inductive epicsEventWaitStatus where
  | epicsEventWaitOK
  | epicsEventWaitTimeout
  | epicsEventWaitError
deriving DecidableEq, Repr

/-- What happens around one semaphore operation: another thread signals the
event while the caller waits, nothing happens, or the primitive fails. -/
inductive SemEnv where
  | signalled
  | silent
  | fault
deriving DecidableEq, Repr

/-- Calls made to the PV transport (ghost log entries). -/
inductive PvCall where
  | varGetCallback (varId : Nat)
  | varPutCallback (varId : Nat)
  | varPutNoBlock (varId : Nat)
  | varCreate (varId : Nat) (name : String)
  | varDestroy (varId : Nat)
  | varMonitorOn (varId : Nat)
  | varMonitorOff (varId : Nat)
  | sysFlush
deriving DecidableEq, Repr

/-- Meta data of a variable as seen through `metaPtr(ch,ss)`. -/
structure PVMETA where
  timeStamp : Nat := 0
  status : pvStat := pvStat.pvStatOK
  severity : pvSevr := pvSevr.pvSevrOK
  message : String := ""
deriving DecidableEq, Repr

/-- Dynamic part of a channel, present while the variable is assigned to a
named PV.  `freed` is a ghost mark: the block was passed to `free`. -/
structure DBCHAN where
  dbName : String := ""
  connected : Bool := false
  dbCount : Nat := 1
  freed : Bool := false
deriving DecidableEq, Repr

/-- Request envelope handed to the transport as user argument. -/
structure PVREQ where
  ss : Nat := 0
  ch : Nat := 0
deriving DecidableEq, Repr

/-- Bounded element queue of a queued channel. -/
structure QUEUE where
  numElems : Nat := 1
  elems : List Int := []
deriving DecidableEq, Repr

/-- Channel record.  `nextSynced` and `dbch` are pointers: `none` is `NULL`,
`nextSynced = some c` points to channel number `c`. -/
structure CHAN where
  dbch : Option DBCHAN := none
  monitored : Bool := false
  syncedTo : Nat := 0
  nextSynced : Option Nat := none
  queue : Option QUEUE := none
  eventNum : Nat := 0
  count : Nat := 1
deriving DecidableEq, Repr

/-- Pointwise update of a table. -/
def setAt {α : Type} (f : Nat → α) (i : Nat) (a : α) : Nat → α :=
  fun j => if j = i then a else f j

/-- Program instance. -/
structure PROG where
  numChans : Nat := 0
  chan : Nat → CHAN := fun _ => {}
  numEvFlags : Nat := 0
  syncedChans : Nat → Option Nat := fun _ => none
  evFlags : Nat → Nat := fun _ => 0
  options : Nat := 0
  assignCount : Nat := 0
  connectCount : Nat := 0
  sharedVal : Nat → Int := fun _ => 0
  sharedMeta : Nat → PVMETA := fun _ => {}
  pvLog : List PvCall := []
  wakeLog : List Nat := []
  die : Bool := false
  ready : Bool := false

/-! ## Double-precision numbers -/

/-- A value of the C type `double` (IEEE 754 binary64): not a number, an
infinity, or a finite number.  The sign of zero is not tracked. -/
inductive Dbl where
  | nan
  | pinf
  | ninf
  | fin (q : ℚ)
deriving DecidableEq

/-- Number of halvings that bring `n` below 2; `fuel` bounds the recursion. -/
def log2Fuel : Nat → Nat → Nat
  | 0, _ => 0
  | fuel + 1, n => if 2 ≤ n then log2Fuel fuel (n / 2) + 1 else 0

/-- Largest `k` with `2^k ≤ n`, for `0 < n`. -/
def natLog2 (n : Nat) : Nat := log2Fuel n n

/-- Largest `e` with `2^e ≤ q`, for `0 < q`. -/
def floorLog2 (q : ℚ) : ℤ :=
  let e0 : ℤ := (natLog2 q.num.natAbs : ℤ) - (natLog2 q.den : ℤ)
  if (2 : ℚ) ^ e0 ≤ q then e0 else e0 - 1

/-- Nearest integer, a tie going to the even neighbour. -/
def roundHalfEven (x : ℚ) : ℤ :=
  let f := ⌊x⌋
  if x - f < 1 / 2 then f
  else if 1 / 2 < x - f then f + 1
  else if f % 2 = 0 then f else f + 1

/-- The `double` nearest to the exact number `q` (round to nearest, ties to
even): 53 significant bits, least exponent -1022 (below it the spacing stays
`2^-1074`), and a result of magnitude `2^1024` or more is an infinity. -/
def roundDbl (q : ℚ) : Dbl :=
  if q = 0 then Dbl.fin 0
  else
    let e := max (floorLog2 |q|) (-1022)
    let ulp : ℚ := 2 ^ (e - 52)
    let r : ℚ := roundHalfEven (q / ulp) * ulp
    if 2 ^ 1024 ≤ r then Dbl.pinf
    else if r ≤ -2 ^ 1024 then Dbl.ninf
    else Dbl.fin r

/-- The operator `+` on `double`. -/
def dblAdd : Dbl → Dbl → Dbl
  | Dbl.nan, _ => Dbl.nan
  | _, Dbl.nan => Dbl.nan
  | Dbl.pinf, Dbl.ninf => Dbl.nan
  | Dbl.ninf, Dbl.pinf => Dbl.nan
  | Dbl.pinf, _ => Dbl.pinf
  | _, Dbl.pinf => Dbl.pinf
  | Dbl.ninf, _ => Dbl.ninf
  | _, Dbl.ninf => Dbl.ninf
  | Dbl.fin a, Dbl.fin b => roundDbl (a + b)

/-- The operator `<=` on `double`; false when an operand is not a number. -/
def dblLe : Dbl → Dbl → Bool
  | Dbl.nan, _ => false
  | _, Dbl.nan => false
  | Dbl.ninf, _ => true
  | _, Dbl.pinf => true
  | Dbl.fin a, Dbl.fin b => decide (a ≤ b)
  | _, _ => false

/-- The operator `<` on `double`; false when an operand is not a number. -/
def dblLt : Dbl → Dbl → Bool
  | Dbl.nan, _ => false
  | _, Dbl.nan => false
  | Dbl.pinf, _ => false
  | _, Dbl.ninf => false
  | Dbl.fin a, Dbl.fin b => decide (a < b)
  | _, _ => true

/-- State set control block, with the program it belongs to. -/
structure SSCB where
  prog : PROG := {}
  ssNum : Nat := 0
  getSem : Nat → Bool := fun _ => true
  putSem : Nat → Bool := fun _ => true
  getReq : Nat → Option PVREQ := fun _ => none
  putReq : Nat → Option PVREQ := fun _ => none
  var : Nat → Int := fun _ => 0
  metaData : Nat → PVMETA := fun _ => {}
  dirty : Nat → Bool := fun _ => false
  timeEntered : Dbl := Dbl.fin 0
  wakeupTime : Dbl := Dbl.fin 0

/-- Outcome of the environment during one `seq_pvGet` / `seq_pvPut` call. -/
structure PvEnv where
  wait1 : SemEnv := SemEnv.silent
  issue : pvStat := pvStat.pvStatOK
  wait2 : SemEnv := SemEnv.signalled
deriving DecidableEq, Repr

/-! ## Option bits (`seqCom.h`) -/

def OPT_DEBUG : Nat := 1 <<< 0
def OPT_ASYNC : Nat := 1 <<< 1
def OPT_CONN : Nat := 1 <<< 2
def OPT_REENT : Nat := 1 <<< 3
def OPT_NEWEF : Nat := 1 <<< 4
def OPT_MAIN : Nat := 1 <<< 5
def OPT_SAFE : Nat := 1 <<< 6

/-- Test of a program option bit: `(sp->options & opt) != 0`. -/
def optTest (sp : PROG) (opt : Nat) : Bool :=
  (sp.options &&& opt) != 0

/-! ## Semaphore primitives -/

/-- Non-blocking take of a binary event: returns the status and the new
state of the event. -/
def epicsEventTryWait (full : Bool) (e : SemEnv) : epicsEventWaitStatus × Bool :=
  match e with
  | SemEnv.fault => (epicsEventWaitStatus.epicsEventWaitError, full)
  | _ => if full then (epicsEventWaitStatus.epicsEventWaitOK, false)
         else (epicsEventWaitStatus.epicsEventWaitTimeout, false)

/-- Take of a binary event with a positive time-out: succeeds at once on a full
event, and on an empty one iff another thread signals it in time. -/
def epicsEventWaitWithTimeout (full : Bool) (e : SemEnv) : epicsEventWaitStatus × Bool :=
  match e with
  | SemEnv.fault => (epicsEventWaitStatus.epicsEventWaitError, full)
  | SemEnv.signalled => (epicsEventWaitStatus.epicsEventWaitOK, false)
  | SemEnv.silent => if full then (epicsEventWaitStatus.epicsEventWaitOK, false)
                     else (epicsEventWaitStatus.epicsEventWaitTimeout, false)

/-! ## Safe-mode buffers -/

/-- Modelled from the spec: `ss_read_buffer` is not part of `seq_if.c`.  It
copies value and meta data of a variable from the shared buffer into the state
set's own buffer and clears the dirty bit; with `dirty_only` it does so only
when the dirty bit is set. -/
def ss_read_buffer (ss : SSCB) (varId : Nat) (dirty_only : Bool) : SSCB :=
  if !ss.dirty varId && dirty_only then ss
  else
    { ss with
      var := setAt ss.var varId (ss.prog.sharedVal varId)
      metaData := setAt ss.metaData varId (ss.prog.sharedMeta varId)
      dirty := setAt ss.dirty varId false }

/-! ## `check_connected` -/

/-- The function `check_connected(dbch, meta)`: status and updated meta data. -/
def check_connected (dbch : DBCHAN) (m : PVMETA) : pvStat × PVMETA :=
  if !dbch.connected then
    (pvStat.pvStatDISCONN,
      { m with status := pvStat.pvStatDISCONN, severity := pvSevr.pvSevrINVALID,
               message := "disconnected" })
  else
    (pvStat.pvStatOK, m)

/-- Append a transport call to the program's ghost log. -/
def logPv (ss : SSCB) (c : PvCall) : SSCB :=
  { ss with prog := { ss.prog with pvLog := ss.prog.pvLog ++ [c] } }

/-! ## `seq_pvGet` -/

/-- First part of `seq_pvGet` for an assigned variable (lines 89-156): take
`getSem[varId]`.  `Sum.inl` is an early `return`, `Sum.inr` continues. -/
def pvGet_acquire (ss : SSCB) (varId : Nat) (dbch : DBCHAN) (ct : compType) (tmo : ℚ)
    (env : PvEnv) : (pvStat × SSCB) ⊕ SSCB :=
  match ct with
  | compType.SYNC =>
    if tmo ≤ 0 then Sum.inl (pvStat.pvStatERROR, ss)
    else
      match epicsEventWaitWithTimeout (ss.getSem varId) env.wait1 with
      | (epicsEventWaitStatus.epicsEventWaitOK, sem) =>
        let ss1 := { ss with getSem := setAt ss.getSem varId sem }
        let r := check_connected dbch (ss1.metaData varId)
        let ss2 := { ss1 with metaData := setAt ss1.metaData varId r.2 }
        if r.1 ≠ pvStat.pvStatOK then
          Sum.inl (r.1, { ss2 with getSem := setAt ss2.getSem varId true })
        else Sum.inr ss2
      | (epicsEventWaitStatus.epicsEventWaitTimeout, _) =>
        Sum.inl (pvStat.pvStatERROR, ss)
      | (epicsEventWaitStatus.epicsEventWaitError, _) =>
        Sum.inl (pvStat.pvStatERROR,
          { ss with getReq := setAt ss.getReq varId none
                    getSem := setAt ss.getSem varId true })
  | compType.ASYNC =>
    match epicsEventTryWait (ss.getSem varId) env.wait1 with
    | (epicsEventWaitStatus.epicsEventWaitOK, sem) =>
      let ss1 := { ss with getSem := setAt ss.getSem varId sem }
      let ss1 := if ss1.getReq varId ≠ none then
                   { ss1 with getReq := setAt ss1.getReq varId none } else ss1
      let r := check_connected dbch (ss1.metaData varId)
      let ss2 := { ss1 with metaData := setAt ss1.metaData varId r.2 }
      if r.1 ≠ pvStat.pvStatOK then
        Sum.inl (r.1, { ss2 with getSem := setAt ss2.getSem varId true })
      else Sum.inr ss2
    | (epicsEventWaitStatus.epicsEventWaitTimeout, _) =>
      Sum.inl (pvStat.pvStatERROR, ss)
    | (epicsEventWaitStatus.epicsEventWaitError, _) =>
      Sum.inl (pvStat.pvStatERROR,
        { ss with getReq := setAt ss.getReq varId none
                  getSem := setAt ss.getSem varId true })
  | compType.DEFAULT => Sum.inr ss

/-- Second part of `seq_pvGet` (lines 158-218): record the request, post it to
the transport and, in SYNC mode, wait for completion.  `none` is the failed
assertion `ss->getReq[varId] == NULL`. -/
def pvGet_issue (ss : SSCB) (varId : Nat) (dbch : DBCHAN) (ct : compType)
    (env : PvEnv) : Option (pvStat × SSCB) :=
  let req : PVREQ := { ss := ss.ssNum, ch := varId }
  if ss.getReq varId ≠ none then none
  else
    let ss1 := logPv { ss with getReq := setAt ss.getReq varId (some req) }
                 (PvCall.varGetCallback varId)
    let status := env.issue
    if status ≠ pvStat.pvStatOK then
      let m : PVMETA := { ss1.metaData varId with
        status := pvStat.pvStatERROR, severity := pvSevr.pvSevrMAJOR, message := "get failure" }
      let ss2 := { ss1 with metaData := setAt ss1.metaData varId m
                            getReq := setAt ss1.getReq varId none
                            getSem := setAt ss1.getSem varId true }
      let r := check_connected dbch (ss2.metaData varId)
      some (status, { ss2 with metaData := setAt ss2.metaData varId r.2 })
    else if ct = compType.SYNC then
      let ss2 := logPv ss1 PvCall.sysFlush
      let w := epicsEventWaitWithTimeout (ss2.getSem varId) env.wait2
      let ss3 := { ss2 with getReq := setAt ss2.getReq varId none
                            getSem := setAt ss2.getSem varId true }
      match w.1 with
      | epicsEventWaitStatus.epicsEventWaitOK =>
        let r := check_connected dbch (ss3.metaData varId)
        let ss4 := { ss3 with metaData := setAt ss3.metaData varId r.2 }
        if r.1 ≠ pvStat.pvStatOK then some (r.1, ss4)
        else if optTest ss4.prog OPT_SAFE then
          some (pvStat.pvStatOK, ss_read_buffer ss4 varId false)
        else some (pvStat.pvStatOK, ss4)
      | epicsEventWaitStatus.epicsEventWaitTimeout =>
        let m : PVMETA := { ss3.metaData varId with
          status := pvStat.pvStatTIMEOUT, severity := pvSevr.pvSevrMAJOR,
          message := "get completion timeout" }
        some (m.status, { ss3 with metaData := setAt ss3.metaData varId m })
      | epicsEventWaitStatus.epicsEventWaitError =>
        let m : PVMETA := { ss3.metaData varId with
          status := pvStat.pvStatERROR, severity := pvSevr.pvSevrMAJOR,
          message := "get completion failure" }
        some (m.status, { ss3 with metaData := setAt ss3.metaData varId m })
    else some (pvStat.pvStatOK, ss1)

/-- The function `seq_pvGet(ss, varId, compType, tmo)`: returned status and new state, or
`none` when the assertion at line 163 fails. -/
def seq_pvGet (ss : SSCB) (varId : Nat) (ct : compType) (tmo : ℚ) (env : PvEnv) :
    Option (pvStat × SSCB) :=
  match (ss.prog.chan varId).dbch with
  | none =>
    if optTest ss.prog OPT_SAFE then some (pvStat.pvStatOK, ss_read_buffer ss varId false)
    else some (pvStat.pvStatERROR, ss)
  | some dbch =>
    let ct := if ct = compType.DEFAULT then
                (if optTest ss.prog OPT_ASYNC then compType.ASYNC else compType.SYNC)
              else ct
    match pvGet_acquire ss varId dbch ct tmo env with
    | Sum.inl r => some r
    | Sum.inr ss1 => pvGet_issue ss1 varId dbch ct env

/-! ## `seq_pvGetComplete`, `seq_pvGetCancel` -/

/-- Body of the loop of `seq_pvGetComplete` for variable `v` (lines 243-285):
new state and the value of `done`. -/
def pvGetComplete_body (ss : SSCB) (v : Nat) (e : SemEnv) : SSCB × Bool :=
  match (ss.prog.chan v).dbch with
  | none => (ss, true)
  | some dbch =>
    if ss.getReq v = none then (ss, true)
    else
      match epicsEventTryWait (ss.getSem v) e with
      | (epicsEventWaitStatus.epicsEventWaitOK, _) =>
        let ss1 := { ss with getReq := setAt ss.getReq v none
                             getSem := setAt ss.getSem v true }
        let r := check_connected dbch (ss1.metaData v)
        let ss2 := { ss1 with metaData := setAt ss1.metaData v r.2 }
        if r.1 = pvStat.pvStatOK && optTest ss2.prog OPT_SAFE then
          (ss_read_buffer ss2 v false, true)
        else (ss2, true)
      | (epicsEventWaitStatus.epicsEventWaitTimeout, _) => (ss, false)
      | (epicsEventWaitStatus.epicsEventWaitError, _) =>
        ({ ss with getReq := setAt ss.getReq v none
                   getSem := setAt ss.getSem v true }, false)

/-- Result of `seq_pvGetComplete`: new state, return value and the contents
written to the `complete` array (empty when the pointer is `NULL`). -/
structure CompleteResult where
  ss : SSCB
  ret : Bool
  complete : List Bool

/-- The `for` loop of `seq_pvGetComplete`: `rem` iterations are left, `n` is
the loop counter. -/
def pvGetComplete_loop (varId : Nat) (any hasComplete : Bool) (env : Nat → SemEnv) :
    Nat → Nat → SSCB → Bool → Bool → List Bool → SSCB × Bool × Bool × List Bool
  | 0, _, ss, anyDone, allDone, out => (ss, anyDone, allDone, out)
  | rem + 1, n, ss, anyDone, allDone, out =>
    let r := pvGetComplete_body ss (varId + n) (env n)
    let anyDone1 := anyDone || r.2
    let allDone1 := allDone && r.2
    if hasComplete then
      pvGetComplete_loop varId any hasComplete env rem (n + 1) r.1 anyDone1 allDone1 (out ++ [r.2])
    else if any && r.2 then (r.1, anyDone1, allDone1, out)
    else pvGetComplete_loop varId any hasComplete env rem (n + 1) r.1 anyDone1 allDone1 out

/-- The function `seq_pvGetComplete(ss, varId, length, any, complete)`; `hasComplete` tells
whether `complete` is a non-`NULL` pointer, `env n` is the environment of the
try-wait in iteration `n`. -/
def seq_pvGetComplete (ss : SSCB) (varId length : Nat) (any hasComplete : Bool)
    (env : Nat → SemEnv) : CompleteResult :=
  let r := pvGetComplete_loop varId any hasComplete env length 0 ss false true []
  { ss := r.1, ret := if any then r.2.1 else r.2.2.1, complete := r.2.2.2 }

/-- Body of the loop of `seq_pvGetCancel`. -/
def pvGetCancel_body (ss : SSCB) (v : Nat) : SSCB :=
  match (ss.prog.chan v).dbch with
  | none => ss
  | some _ => { ss with getReq := setAt ss.getReq v none
                        getSem := setAt ss.getSem v true }

/-- The function `seq_pvGetCancel(ss, varId, length)`. -/
def seq_pvGetCancel (ss : SSCB) (varId : Nat) : Nat → SSCB
  | 0 => ss
  | length + 1 => pvGetCancel_body (seq_pvGetCancel ss varId length) (varId + length)

/-! ## Event flags -/

/-- Number of bits in a `seqMask` word. -/
def NBITS : Nat := 32

/-- The function `bitSet(words, bitnum)`. -/
def bitSet (words : Nat → Nat) (bitnum : Nat) : Nat → Nat :=
  setAt words (bitnum / NBITS) (words (bitnum / NBITS) ||| (1 <<< (bitnum % NBITS)))

/-- The function `bitClear(words, bitnum)`; the complement is taken in 32 bits. -/
def bitClear (words : Nat → Nat) (bitnum : Nat) : Nat → Nat :=
  setAt words (bitnum / NBITS)
    (words (bitnum / NBITS) &&& (4294967295 ^^^ (1 <<< (bitnum % NBITS))))

/-- The function `bitTest(words, bitnum)`. -/
def bitTest (words : Nat → Nat) (bitnum : Nat) : Bool :=
  (words (bitnum / NBITS) &&& (1 <<< (bitnum % NBITS))) != 0

/-- Modelled from the spec: `ss_wakeup` is not part of `seq_if.c`.  It posts
the wake semaphore of every state set whose current state's event mask contains
the event; here the event number is appended to the ghost wake-up log. -/
def ss_wakeup (sp : PROG) (eventNum : Nat) : PROG :=
  { sp with wakeLog := sp.wakeLog ++ [eventNum] }

/-- The function `seq_efSet(ss, ev_flag)`; `none` is the failed assertion on `ev_flag`. -/
def seq_efSet (ss : SSCB) (ev_flag : Nat) : Option SSCB :=
  if 0 < ev_flag ∧ ev_flag ≤ ss.prog.numEvFlags then
    some { ss with prog := ss_wakeup { ss.prog with evFlags := bitSet ss.prog.evFlags ev_flag }
                              ev_flag }
  else none

/-! ## `seq_pvPut` -/

/-- Modelled from the spec: `seqQueuePutF` is not part of `seq_if.c`.  A put on
a full queue overwrites (the oldest element is dropped) and reports "was
full". -/
def seqQueuePutF (q : QUEUE) (x : Int) : Bool × QUEUE :=
  if q.numElems ≤ q.elems.length then (true, { q with elems := q.elems.tail ++ [x] })
  else (false, { q with elems := q.elems ++ [x] })

/-- Modelled from the spec: `ss_write_buffer` is not part of `seq_if.c`.  It
writes the value into the shared buffer and sets the dirty bit when `dirtify`
holds. -/
def ss_write_buffer (ss : SSCB) (varId : Nat) (value : Int) (dirtify : Bool) : SSCB :=
  { ss with
    prog := { ss.prog with sharedVal := setAt ss.prog.sharedVal varId value }
    dirty := if dirtify then setAt ss.dirty varId true else ss.dirty }

/-- The function `anonymous_put(ss, ch)` for channel number `varId`. -/
def anonymous_put (ss : SSCB) (varId : Nat) : Option SSCB :=
  let ch := ss.prog.chan varId
  let value := ss.var varId
  let ss1 : SSCB :=
    match ch.queue with
    | some queue =>
      let r := seqQueuePutF queue value
      { ss with prog := { ss.prog with
          chan := setAt ss.prog.chan varId { ch with queue := some r.2 } } }
    | none => ss_write_buffer ss varId value ch.monitored
  let ss2 : Option SSCB := if ch.syncedTo ≠ 0 then seq_efSet ss1 ch.syncedTo else some ss1
  ss2.map (fun s => { s with prog := ss_wakeup s.prog ch.eventNum })

/-- First part of `seq_pvPut` after the connection check (lines 437-504). -/
def pvPut_acquire (ss : SSCB) (varId : Nat) (ct : compType) (tmo : ℚ) (env : PvEnv) :
    (pvStat × SSCB) ⊕ SSCB :=
  match ct with
  | compType.SYNC =>
    if tmo ≤ 0 then Sum.inl (pvStat.pvStatERROR, ss)
    else
      match epicsEventWaitWithTimeout (ss.putSem varId) env.wait1 with
      | (epicsEventWaitStatus.epicsEventWaitOK, sem) =>
        Sum.inr { ss with putSem := setAt ss.putSem varId sem }
      | (epicsEventWaitStatus.epicsEventWaitTimeout, _) =>
        Sum.inl (pvStat.pvStatERROR, ss)
      | (epicsEventWaitStatus.epicsEventWaitError, _) =>
        Sum.inl (pvStat.pvStatERROR,
          { ss with putReq := setAt ss.putReq varId none
                    putSem := setAt ss.putSem varId true })
  | compType.ASYNC =>
    match epicsEventTryWait (ss.putSem varId) env.wait1 with
    | (epicsEventWaitStatus.epicsEventWaitOK, sem) =>
      let ss1 := { ss with putSem := setAt ss.putSem varId sem }
      Sum.inr (if ss1.putReq varId ≠ none then
                 { ss1 with putReq := setAt ss1.putReq varId none } else ss1)
    | (epicsEventWaitStatus.epicsEventWaitTimeout, _) =>
      let m : PVMETA := { ss.metaData varId with
        status := pvStat.pvStatERROR, severity := pvSevr.pvSevrMAJOR,
        message := "already one put pending" }
      Sum.inl (pvStat.pvStatERROR, { ss with metaData := setAt ss.metaData varId m })
    | (epicsEventWaitStatus.epicsEventWaitError, _) =>
      Sum.inl (pvStat.pvStatERROR,
        { ss with putReq := setAt ss.putReq varId none
                  putSem := setAt ss.putSem varId true })
  | compType.DEFAULT => Sum.inr ss

/-- Second part of `seq_pvPut` (lines 506-584): the transport call and, in
SYNC mode, the wait for completion.  `none` is the failed assertion
`ss->putReq[varId] == NULL`. -/
def pvPut_issue (ss : SSCB) (varId : Nat) (dbch : DBCHAN) (ct : compType)
    (env : PvEnv) : Option (pvStat × SSCB) :=
  if ct = compType.DEFAULT then
    let ss1 := logPv ss (PvCall.varPutNoBlock varId)
    let status := env.issue
    if status ≠ pvStat.pvStatOK then some (status, ss1)
    else some (pvStat.pvStatOK, ss1)
  else
    let req : PVREQ := { ss := ss.ssNum, ch := varId }
    if ss.putReq varId ≠ none then none
    else
      let ss1 := logPv { ss with putReq := setAt ss.putReq varId (some req) }
                   (PvCall.varPutCallback varId)
      let status := env.issue
      if status ≠ pvStat.pvStatOK then
        let ss2 := { ss1 with putReq := setAt ss1.putReq varId none
                              putSem := setAt ss1.putSem varId true }
        let r := check_connected dbch (ss2.metaData varId)
        some (status, { ss2 with metaData := setAt ss2.metaData varId r.2 })
      else if ct = compType.SYNC then
        let ss2 := logPv ss1 PvCall.sysFlush
        let w := epicsEventWaitWithTimeout (ss2.putSem varId) env.wait2
        let ss3 := { ss2 with putReq := setAt ss2.putReq varId none
                              putSem := setAt ss2.putSem varId true }
        match w.1 with
        | epicsEventWaitStatus.epicsEventWaitOK =>
          let r := check_connected dbch (ss3.metaData varId)
          let ss4 := { ss3 with metaData := setAt ss3.metaData varId r.2 }
          if r.1 ≠ pvStat.pvStatOK then some (r.1, ss4)
          else some (pvStat.pvStatOK, ss4)
        | epicsEventWaitStatus.epicsEventWaitTimeout =>
          let m : PVMETA := { ss3.metaData varId with
            status := pvStat.pvStatTIMEOUT, severity := pvSevr.pvSevrMAJOR,
            message := "put completion timeout" }
          some (m.status, { ss3 with metaData := setAt ss3.metaData varId m })
        | epicsEventWaitStatus.epicsEventWaitError =>
          let m : PVMETA := { ss3.metaData varId with
            status := pvStat.pvStatERROR, severity := pvSevr.pvSevrMAJOR,
            message := "put completion failure" }
          some (m.status, { ss3 with metaData := setAt ss3.metaData varId m })
      else some (pvStat.pvStatOK, ss1)

/-- The function `seq_pvPut(ss, varId, compType, tmo)`: returned status and new state, or
`none` when an assertion fails. -/
def seq_pvPut (ss : SSCB) (varId : Nat) (ct : compType) (tmo : ℚ) (env : PvEnv) :
    Option (pvStat × SSCB) :=
  match (ss.prog.chan varId).dbch with
  | none =>
    if optTest ss.prog OPT_SAFE then
      (anonymous_put ss varId).map (fun s => (pvStat.pvStatOK, s))
    else some (pvStat.pvStatERROR, ss)
  | some dbch =>
    let r := check_connected dbch (ss.metaData varId)
    let ss0 := { ss with metaData := setAt ss.metaData varId r.2 }
    if r.1 ≠ pvStat.pvStatOK then some (r.1, ss0)
    else
      match pvPut_acquire ss0 varId ct tmo env with
      | Sum.inl res => some res
      | Sum.inr ss1 => pvPut_issue ss1 varId dbch ct env

/-! ## `seq_pvAssign` and the information functions -/

/-- Outcome of the environment during one `seq_pvAssign` call: the macro
expansion of the name, the status of `pvVarDestroy` and `pvVarCreate`, and
whether the two allocations fail. -/
structure AssignEnv where
  seqMacEval : String → String := fun n => n
  destroy : pvStat := pvStat.pvStatOK
  callocFails : Bool := false
  strDupFails : Bool := false
  create : pvStat := pvStat.pvStatOK

/-- Decrement of an `unsigned` counter. -/
def decU32 (n : Nat) : Nat := (n + 4294967295) % 4294967296

/-- Increment of an `unsigned` counter. -/
def incU32 (n : Nat) : Nat := (n + 1) % 4294967296

/-- Overwrite the block `ch->dbch` points to (the pointer itself is kept). -/
def setDbch (sp : PROG) (varId : Nat) (d : Option DBCHAN) : PROG :=
  { sp with chan := setAt sp.chan varId { sp.chan varId with dbch := d } }

/-- Lines 715-738 of `seq_pvAssign`: release of the previous assignment. -/
def pvAssign_release (sp : PROG) (varId : Nat) (dbch : DBCHAN) (env : AssignEnv) :
    pvStat × PROG × DBCHAN :=
  let sp1 := { sp with pvLog := sp.pvLog ++ [PvCall.varDestroy varId]
                       assignCount := decU32 sp.assignCount }
  if dbch.connected then
    let d : DBCHAN := { dbch with connected := false }
    let sp2 := { setDbch sp1 varId (some d) with connectCount := decU32 sp1.connectCount }
    let sp3 := if (sp2.chan varId).monitored then
                 { sp2 with pvLog := sp2.pvLog ++ [PvCall.varMonitorOff varId] } else sp2
    (env.destroy, sp3, d)
  else (env.destroy, sp1, dbch)

/-- The function `seq_pvAssign(ss, varId, pvName)`. -/
def seq_pvAssign (ss : SSCB) (varId : Nat) (pvName : String) (env : AssignEnv) :
    pvStat × SSCB :=
  let sp := ss.prog
  let new_pv_name := env.seqMacEval pvName
  let old := (sp.chan varId).dbch
  let r : pvStat × PROG :=
    match old with
    | some dbch0 =>
      let rel := pvAssign_release sp varId dbch0 env
      if new_pv_name = "" then
        (rel.1, setDbch rel.2.1 varId (some { rel.2.2 with freed := true }))
      else if env.strDupFails then
        (pvStat.pvStatERROR, setDbch rel.2.1 varId (some { rel.2.2 with freed := true }))
      else
        let d : DBCHAN := { rel.2.2 with dbName := new_pv_name }
        let sp1 := setDbch rel.2.1 varId (some d)
        let sp2 := { sp1 with assignCount := incU32 sp1.assignCount
                              pvLog := sp1.pvLog ++ [PvCall.varCreate varId new_pv_name] }
        if env.create ≠ pvStat.pvStatOK then
          (env.create, setDbch sp2 varId (some { d with freed := true }))
        else (env.create, sp2)
    | none =>
      if new_pv_name = "" then (pvStat.pvStatOK, sp)
      else if env.callocFails then (pvStat.pvStatERROR, sp)
      else if env.strDupFails then (pvStat.pvStatERROR, sp)
      else
        let d : DBCHAN := { dbName := new_pv_name, connected := false, dbCount := 0, freed := false }
        let sp1 := setDbch sp varId (some d)
        let sp2 := { sp1 with assignCount := incU32 sp1.assignCount
                              pvLog := sp1.pvLog ++ [PvCall.varCreate varId new_pv_name] }
        if env.create ≠ pvStat.pvStatOK then
          (env.create, setDbch sp2 varId (some { d with freed := true }))
        else (env.create, sp2)
  (r.1, { ss with prog := r.2 })

/-- The function `seq_pvChannelCount(ss)`. -/
def seq_pvChannelCount (ss : SSCB) : Nat := ss.prog.numChans

/-- The function `seq_pvConnectCount(ss)`. -/
def seq_pvConnectCount (ss : SSCB) : Nat := ss.prog.connectCount

/-- The function `seq_pvAssignCount(ss)`. -/
def seq_pvAssignCount (ss : SSCB) : Nat := ss.prog.assignCount

/-- The function `seq_pvConnected(ss, varId)`. -/
def seq_pvConnected (ss : SSCB) (varId : Nat) : Bool :=
  match (ss.prog.chan varId).dbch with
  | some dbch => dbch.connected
  | none => false

/-- The function `seq_pvAssigned(ss, varId)`: `ch->dbch != NULL`. -/
def seq_pvAssigned (ss : SSCB) (varId : Nat) : Bool :=
  ((ss.prog.chan varId).dbch).isSome

/-- The function `seq_pvName(ss, varId)`; `none` is `NULL`. -/
def seq_pvName (ss : SSCB) (varId : Nat) : Option String :=
  match (ss.prog.chan varId).dbch with
  | some dbch => some dbch.dbName
  | none => none

/-! ## `seq_pvSync` -/

/-- The `while` loop of `seq_pvSync` (lines 870-874): starting at channel `ch`,
follow `nextSynced` until the channel in front of `this_ch` is found.  `none`
is the failed `assert(ch)`, or the fuel running out. -/
def findPrev (chan : Nat → CHAN) (this_ch : Nat) : Nat → Nat → Option Nat
  | 0, _ => none
  | fuel + 1, ch =>
    if (chan ch).nextSynced = some this_ch then some ch
    else
      match (chan ch).nextSynced with
      | none => none
      | some c => findPrev chan this_ch fuel c

/-- Lines 858-878: remove `this_ch` from the list of `old_ev_flag`. -/
def pvSync_unlink (sp : PROG) (this_ch old_ev_flag : Nat) : Option PROG :=
  match sp.syncedChans old_ev_flag with
  | none => none
  | some ch =>
    if ch = this_ch then
      some { sp with
        syncedChans := setAt sp.syncedChans old_ev_flag (sp.chan this_ch).nextSynced
        chan := setAt sp.chan ch { sp.chan ch with nextSynced := none } }
    else
      match findPrev sp.chan this_ch sp.numChans ch with
      | none => none
      | some p =>
        some { sp with
          chan := setAt sp.chan p { sp.chan p with nextSynced := (sp.chan this_ch).nextSynced } }

/-- Body of the `for` loop of `seq_pvSync` for channel `this_ch`. -/
def pvSync_body (sp : PROG) (this_ch new_ev_flag : Nat) : Option PROG :=
  let old_ev_flag := (sp.chan this_ch).syncedTo
  if old_ev_flag ≠ new_ev_flag then
    let r1 : Option PROG :=
      if old_ev_flag ≠ 0 then pvSync_unlink sp this_ch old_ev_flag else some sp
    r1.map fun sp1 =>
      let sp2 := { sp1 with
        chan := setAt sp1.chan this_ch { sp1.chan this_ch with syncedTo := new_ev_flag } }
      if new_ev_flag ≠ 0 then
        { sp2 with
          syncedChans := setAt sp2.syncedChans new_ev_flag (some this_ch)
          chan := setAt sp2.chan this_ch
            { sp2.chan this_ch with nextSynced := sp2.syncedChans new_ev_flag } }
      else sp2
  else some sp

/-- The `for` loop of `seq_pvSync`: channels `varId .. varId+length-1` in
increasing order. -/
def pvSync_loop (varId new_ev_flag : Nat) : Nat → PROG → Option PROG
  | 0, sp => some sp
  | length + 1, sp =>
    (pvSync_loop varId new_ev_flag length sp).bind
      fun sp1 => pvSync_body sp1 (varId + length) new_ev_flag

/-- The function `seq_pvSync(ss, varId, length, new_ev_flag)`; `none` is a failed
assertion. -/
def seq_pvSync (ss : SSCB) (varId length new_ev_flag : Nat) : Option SSCB :=
  if new_ev_flag ≤ ss.prog.numEvFlags then
    (pvSync_loop varId new_ev_flag length ss.prog).map fun sp => { ss with prog := sp }
  else none

/-! ## `seq_pvPutComplete`, `seq_pvPutCancel` -/

/-- Body of the loop of `seq_pvPutComplete` for variable `v` (lines 607-642):
new state and the value of `done`. -/
def pvPutComplete_body (ss : SSCB) (v : Nat) (e : SemEnv) : SSCB × Bool :=
  match (ss.prog.chan v).dbch with
  | none => (ss, true)
  | some dbch =>
    if ss.putReq v = none then (ss, true)
    else
      match epicsEventTryWait (ss.putSem v) e with
      | (epicsEventWaitStatus.epicsEventWaitOK, _) =>
        let ss1 := { ss with putReq := setAt ss.putReq v none
                             putSem := setAt ss.putSem v true }
        let r := check_connected dbch (ss1.metaData v)
        ({ ss1 with metaData := setAt ss1.metaData v r.2 }, true)
      | (epicsEventWaitStatus.epicsEventWaitTimeout, _) => (ss, false)
      | (epicsEventWaitStatus.epicsEventWaitError, _) =>
        ({ ss with putReq := setAt ss.putReq v none
                   putSem := setAt ss.putSem v true }, false)

/-- The `for` loop of `seq_pvPutComplete`: `rem` iterations are left, `n` is
the loop counter. -/
def pvPutComplete_loop (varId : Nat) (any hasComplete : Bool) (env : Nat → SemEnv) :
    Nat → Nat → SSCB → Bool → Bool → List Bool → SSCB × Bool × Bool × List Bool
  | 0, _, ss, anyDone, allDone, out => (ss, anyDone, allDone, out)
  | rem + 1, n, ss, anyDone, allDone, out =>
    let r := pvPutComplete_body ss (varId + n) (env n)
    let anyDone1 := anyDone || r.2
    let allDone1 := allDone && r.2
    if hasComplete then
      pvPutComplete_loop varId any hasComplete env rem (n + 1) r.1 anyDone1 allDone1 (out ++ [r.2])
    else if any && r.2 then (r.1, anyDone1, allDone1, out)
    else pvPutComplete_loop varId any hasComplete env rem (n + 1) r.1 anyDone1 allDone1 out

/-- The function `seq_pvPutComplete(ss, varId, length, any, complete)`, with the
conventions of `seq_pvGetComplete`. -/
def seq_pvPutComplete (ss : SSCB) (varId length : Nat) (any hasComplete : Bool)
    (env : Nat → SemEnv) : CompleteResult :=
  let r := pvPutComplete_loop varId any hasComplete env length 0 ss false true []
  { ss := r.1, ret := if any then r.2.1 else r.2.2.1, complete := r.2.2.2 }

/-- Body of the loop of `seq_pvPutCancel`. -/
def pvPutCancel_body (ss : SSCB) (v : Nat) : SSCB :=
  match (ss.prog.chan v).dbch with
  | none => ss
  | some _ => { ss with putReq := setAt ss.putReq v none
                        putSem := setAt ss.putSem v true }

/-- The function `seq_pvPutCancel(ss, varId, length)`. -/
def seq_pvPutCancel (ss : SSCB) (varId : Nat) : Nat → SSCB
  | 0 => ss
  | length + 1 => pvPutCancel_body (seq_pvPutCancel ss varId length) (varId + length)

/-! ## Monitors, flush, exit -/

/-- Modelled from the spec: `seq_camonitor` is not part of `seq_if.c`.  It
subscribes or unsubscribes the channel on the transport; the call is logged and
its status `st` is given by the environment. -/
def seq_camonitor (ss : SSCB) (varId : Nat) (turn_on : Bool) (st : pvStat) : pvStat × SSCB :=
  (st, logPv ss (if turn_on then PvCall.varMonitorOn varId else PvCall.varMonitorOff varId))

/-- Set the `monitored` field of a channel. -/
def setMonitored (ss : SSCB) (varId : Nat) (b : Bool) : SSCB :=
  { ss with prog := { ss.prog with
      chan := setAt ss.prog.chan varId { ss.prog.chan varId with monitored := b } } }

/-- The function `seq_pvMonitor(ss, varId)`; `st` is the status of the
transport call. -/
def seq_pvMonitor (ss : SSCB) (varId : Nat) (st : pvStat) : pvStat × SSCB :=
  match (ss.prog.chan varId).dbch with
  | none =>
    if optTest ss.prog OPT_SAFE then (pvStat.pvStatOK, setMonitored ss varId true)
    else (pvStat.pvStatERROR, ss)
  | some _ => seq_camonitor (setMonitored ss varId true) varId true st

/-- The function `seq_pvStopMonitor(ss, varId)`; `st` is the status of the
transport call. -/
def seq_pvStopMonitor (ss : SSCB) (varId : Nat) (st : pvStat) : pvStat × SSCB :=
  match (ss.prog.chan varId).dbch with
  | none =>
    if optTest ss.prog OPT_SAFE then (pvStat.pvStatOK, setMonitored ss varId false)
    else (pvStat.pvStatERROR, ss)
  | some _ => seq_camonitor (setMonitored ss varId false) varId false st

/-- The function `seq_pvFlush(ss)`. -/
def seq_pvFlush (ss : SSCB) : SSCB := logPv ss PvCall.sysFlush

/-- The function `seq_exit(ss)`. -/
def seq_exit (ss : SSCB) : SSCB :=
  { ss with prog := ss_wakeup { ss.prog with die := true, ready := true } 0 }

/-! ## `seq_efTest`, `seq_efClear`, `seq_efTestAndClear` -/

/-- Modelled from the spec: `ss_read_buffer_selective` is not part of
`seq_if.c`.  It copies from the shared buffer into the state set's buffer every
variable synchronised to `ev_flag` whose dirty bit is set, clearing those dirty
bits. -/
def ss_read_buffer_selective (ss : SSCB) (ev_flag : Nat) : SSCB :=
  (List.range ss.prog.numChans).foldl
    (fun s c => if (s.prog.chan c).syncedTo = ev_flag then ss_read_buffer s c true else s) ss

/-- The function `seq_efTest(ss, ev_flag)`: returned value and new state; `none`
is the failed assertion on `ev_flag`. -/
def seq_efTest (ss : SSCB) (ev_flag : Nat) : Option (Bool × SSCB) :=
  if 0 < ev_flag ∧ ev_flag ≤ ss.prog.numEvFlags then
    let isSet := bitTest ss.prog.evFlags ev_flag
    some (isSet,
      if optTest ss.prog OPT_SAFE then ss_read_buffer_selective ss ev_flag else ss)
  else none

/-- The function `seq_efClear(ss, ev_flag)`. -/
def seq_efClear (ss : SSCB) (ev_flag : Nat) : Option (Bool × SSCB) :=
  if 0 < ev_flag ∧ ev_flag ≤ ss.prog.numEvFlags then
    let isSet := bitTest ss.prog.evFlags ev_flag
    some (isSet,
      { ss with prog :=
          ss_wakeup { ss.prog with evFlags := bitClear ss.prog.evFlags ev_flag } ev_flag })
  else none

/-- The function `seq_efTestAndClear(ss, ev_flag)`. -/
def seq_efTestAndClear (ss : SSCB) (ev_flag : Nat) : Option (Bool × SSCB) :=
  if 0 < ev_flag ∧ ev_flag ≤ ss.prog.numEvFlags then
    let isSet := bitTest ss.prog.evFlags ev_flag
    let ss1 := { ss with prog := { ss.prog with evFlags := bitClear ss.prog.evFlags ev_flag } }
    some (isSet,
      if optTest ss1.prog OPT_SAFE then ss_read_buffer_selective ss1 ev_flag else ss1)
  else none

/-! ## Queued channels: `seq_pvGetQ`, `seq_pvFlushQ` -/

/-- How a queue element (an opaque `pvValue`) is read: the macros `pv_status`,
`pv_severity`, `pv_stamp`, `pv_value_ptr` and `pv_is_time_type` of the PV layer,
which are not part of `seq_if.c`.  `pv_is_time_type c` tells whether the request
type of channel `c` carries status, severity and time stamp. -/
structure PvDecode where
  pv_status : Int → pvStat := fun _ => pvStat.pvStatOK
  pv_severity : Int → pvSevr := fun _ => pvSevr.pvSevrOK
  pv_stamp : Int → Nat := fun _ => 0
  pv_value : Int → Int := fun x => x
  pv_is_time_type : Nat → Bool := fun _ => true

/-- Modelled from the spec: `seqQueueGetF` is not part of `seq_if.c`.  A
non-blocking get: on an empty queue it reports "was empty" and delivers
nothing, otherwise it removes and delivers the oldest element. -/
def seqQueueGetF (q : QUEUE) : Bool × QUEUE × Option Int :=
  match q.elems with
  | [] => (true, q, none)
  | x :: rest => (false, { q with elems := rest }, some x)

/-- Modelled from the spec: `seqQueueIsEmpty` is not part of `seq_if.c`. -/
def seqQueueIsEmpty (q : QUEUE) : Bool := q.elems.isEmpty

/-- Modelled from the spec: `seqQueueFlush` is not part of `seq_if.c`; it
drains the queue. -/
def seqQueueFlush (q : QUEUE) : QUEUE := { q with elems := [] }

/-- The copy hook `getq_cp` applied to the delivered element `value`; `none` is
the failed assertion `pv_is_time_type(type)`. -/
def getq_cp (ss : SSCB) (varId : Nat) (value : Int) (dec : PvDecode) : Option SSCB :=
  match (ss.prog.chan varId).dbch with
  | some _ =>
    if dec.pv_is_time_type varId then
      let m : PVMETA := { ss.metaData varId with
        status := dec.pv_status value, severity := dec.pv_severity value,
        timeStamp := dec.pv_stamp value }
      some { ss with metaData := setAt ss.metaData varId m
                     var := setAt ss.var varId (dec.pv_value value) }
    else none
  | none => some { ss with var := setAt ss.var varId (dec.pv_value value) }

/-- Replace the queue of a channel. -/
def setQueue (ss : SSCB) (varId : Nat) (q : QUEUE) : SSCB :=
  { ss with prog := { ss.prog with
      chan := setAt ss.prog.chan varId { ss.prog.chan varId with queue := some q } } }

/-- The function `seq_pvGetQ(ss, varId)`: returned value and new state; `none`
is a failed assertion in the copy hook. -/
def seq_pvGetQ (ss : SSCB) (varId : Nat) (dec : PvDecode) : Option (Bool × SSCB) :=
  let ch := ss.prog.chan varId
  let ev_flag := ch.syncedTo
  match ch.queue with
  | none => some (false, ss)
  | some queue =>
    let r := seqQueueGetF queue
    let copied : Option SSCB :=
      match r.2.2 with
      | some value => getq_cp ss varId value dec
      | none => some ss
    copied.map fun ss1 =>
      let ss2 := setQueue ss1 varId r.2.1
      let ss3 :=
        if ev_flag ≠ 0 then
          if seqQueueIsEmpty r.2.1 then
            { ss2 with prog := { ss2.prog with evFlags := bitClear ss2.prog.evFlags ev_flag } }
          else ss2
        else ss2
      (!r.1, ss3)

/-- The function `seq_pvFlushQ(ss, varId)`; `none` is the access through the
`NULL` queue pointer of a channel that is not queued. -/
def seq_pvFlushQ (ss : SSCB) (varId : Nat) : Option SSCB :=
  let ch := ss.prog.chan varId
  let ev_flag := ch.syncedTo
  match ch.queue with
  | none => none
  | some queue =>
    let ss1 := setQueue ss varId (seqQueueFlush queue)
    some { ss1 with prog := { ss1.prog with evFlags := bitClear ss1.prog.evFlags ev_flag } }

/-! ## `seq_delay` -/

/-- The function `seq_delay(ss, delay)`; `now` is the time read by
`pvTimeGetCurrentDouble`. -/
def seq_delay (ss : SSCB) (delay now : Dbl) : Bool × SSCB :=
  let timeExpired := dblAdd ss.timeEntered delay
  let expired := dblLe timeExpired now
  if !expired && dblLt timeExpired ss.wakeupTime then
    (expired, { ss with wakeupTime := timeExpired })
  else (expired, ss)

/-! ## Example states -/

/-- One channel, number 0, assigned to PV "X" and connected; no request
outstanding. -/
def exAssigned : SSCB :=
  { prog := { numChans := 1
              chan := fun _ => { dbch := some { dbName := "X", connected := true } }
              assignCount := 1
              connectCount := 1 } }

/-- As `exAssigned`, with an ASYNC get and an ASYNC put pending on channel 0:
semaphores taken, requests recorded. -/
def exPending : SSCB :=
  { exAssigned with
    getSem := fun _ => false
    putSem := fun _ => false
    getReq := fun _ => some { ss := 0, ch := 0 }
    putReq := fun _ => some { ss := 0, ch := 0 } }

/-- As `exAssigned`, after an ASYNC get on channel 0 whose completion the
transport has posted: `getSem[0]` signalled, request still recorded. -/
def exCompleted : SSCB :=
  { exAssigned with getReq := fun _ => some { ss := 0, ch := 0 } }

/-- One channel, number 0, not assigned. -/
def exUnassigned : SSCB :=
  { prog := { numChans := 1 } }

/-! ## The per-flag lists of synchronised channels -/

/-- The `nextSynced` pointer of channel `c`. -/
def nextOf (sp : PROG) (c : Nat) : Option Nat := (sp.chan c).nextSynced

/-- Following `next` from the pointer `h` visits exactly the channels of `l`,
in this order, and then reaches `NULL`. -/
def IsChain (next : Nat → Option Nat) : Option Nat → List Nat → Prop
  | h, [] => h = none
  | h, c :: l => h = some c ∧ IsChain next (next c) l

/-- The list starting at `syncedChans[f]` consists of the channels `l`. -/
def SyncedList (sp : PROG) (f : Nat) (l : List Nat) : Prop :=
  IsChain (nextOf sp) (sp.syncedChans f) l

/-- Decision procedure: `IsChain` can be checked by following the pointers. -/
instance IsChain.decidable (next : Nat → Option Nat) :
    ∀ (h : Option Nat) (l : List Nat), Decidable (IsChain next h l)
  | h, [] => inferInstanceAs (Decidable (h = none))
  | h, c :: l =>
    have : Decidable (IsChain next (next c) l) := IsChain.decidable next (next c) l
    inferInstanceAs (Decidable (h = some c ∧ IsChain next (next c) l))

instance SyncedList.decidable (sp : PROG) (f : Nat) (l : List Nat) :
    Decidable (SyncedList sp f l) :=
  IsChain.decidable (nextOf sp) (sp.syncedChans f) l

/-- Sync-list invariant: for every flag `f` in `[1..numEvFlags]` the list
starting at `syncedChans[f]` is finite (ends in `NULL`, hence acyclic) and
holds exactly the channels whose `syncedTo` is `f`, each once. -/
def SyncInv (sp : PROG) : Prop :=
  ∀ f, 1 ≤ f → f ≤ sp.numEvFlags →
    ∃ l, SyncedList sp f l ∧ l.Nodup ∧
      ∀ c, c ∈ l ↔ (c < sp.numChans ∧ (sp.chan c).syncedTo = f)

/-- Every channel's `syncedTo` is 0 or an event flag of the program. -/
def SyncedToValid (sp : PROG) : Prop :=
  ∀ c, c < sp.numChans → (sp.chan c).syncedTo ≤ sp.numEvFlags

/-- Three channels and two event flags; channels 0 and 2 are synced to flag 1
(list `2 -> 0`), channel 1 is not synced. -/
def exSynced : SSCB :=
  { prog := { numChans := 3
              numEvFlags := 2
              chan := fun c =>
                if c = 0 then { syncedTo := 1, nextSynced := none }
                else if c = 2 then { syncedTo := 1, nextSynced := some 0 }
                else {}
              syncedChans := fun f => if f = 1 then some 2 else none } }

/-! ## Sequences of interface calls -/

/-- The state-changing interface functions of `seq_if.c`, each with its
arguments and with what the environment does during the call.  The remaining
interface functions only read the state. -/
inductive FacadeOp where
  | opPvGet (varId : Nat) (ct : compType) (tmo : ℚ) (env : PvEnv)
  | opPvGetComplete (varId length : Nat) (any hasComplete : Bool) (env : Nat → SemEnv)
  | opPvGetCancel (varId length : Nat)
  | opPvPut (varId : Nat) (ct : compType) (tmo : ℚ) (env : PvEnv)
  | opPvPutComplete (varId length : Nat) (any hasComplete : Bool) (env : Nat → SemEnv)
  | opPvPutCancel (varId length : Nat)
  | opPvAssign (varId : Nat) (pvName : String) (env : AssignEnv)
  | opPvMonitor (varId : Nat) (st : pvStat)
  | opPvStopMonitor (varId : Nat) (st : pvStat)
  | opPvSync (varId length new_ev_flag : Nat)
  | opPvFlush
  | opEfSet (ev_flag : Nat)
  | opEfTest (ev_flag : Nat)
  | opEfClear (ev_flag : Nat)
  | opEfTestAndClear (ev_flag : Nat)
  | opPvGetQ (varId : Nat) (dec : PvDecode)
  | opPvFlushQ (varId : Nat)
  | opDelay (delay now : Dbl)
  | opExit

/-- State after one interface call; `none` when the call aborts. -/
def facadeStep (ss : SSCB) : FacadeOp → Option SSCB
  | FacadeOp.opPvGet v ct tmo env => (seq_pvGet ss v ct tmo env).map Prod.snd
  | FacadeOp.opPvGetComplete v len any hasComplete env =>
    some (seq_pvGetComplete ss v len any hasComplete env).ss
  | FacadeOp.opPvGetCancel v len => some (seq_pvGetCancel ss v len)
  | FacadeOp.opPvPut v ct tmo env => (seq_pvPut ss v ct tmo env).map Prod.snd
  | FacadeOp.opPvPutComplete v len any hasComplete env =>
    some (seq_pvPutComplete ss v len any hasComplete env).ss
  | FacadeOp.opPvPutCancel v len => some (seq_pvPutCancel ss v len)
  | FacadeOp.opPvAssign v name env => some (seq_pvAssign ss v name env).2
  | FacadeOp.opPvMonitor v st => some (seq_pvMonitor ss v st).2
  | FacadeOp.opPvStopMonitor v st => some (seq_pvStopMonitor ss v st).2
  | FacadeOp.opPvSync v len flag => seq_pvSync ss v len flag
  | FacadeOp.opPvFlush => some (seq_pvFlush ss)
  | FacadeOp.opEfSet g => seq_efSet ss g
  | FacadeOp.opEfTest g => (seq_efTest ss g).map Prod.snd
  | FacadeOp.opEfClear g => (seq_efClear ss g).map Prod.snd
  | FacadeOp.opEfTestAndClear g => (seq_efTestAndClear ss g).map Prod.snd
  | FacadeOp.opPvGetQ v dec => (seq_pvGetQ ss v dec).map Prod.snd
  | FacadeOp.opPvFlushQ v => seq_pvFlushQ ss v
  | FacadeOp.opDelay d now => some (seq_delay ss d now).2
  | FacadeOp.opExit => some (seq_exit ss)

/-- The call is `seq_efSet` on flag `f`, or an anonymous `seq_pvPut` (safe mode,
channel not assigned) on a channel that is synced to `f` in state `ss`. -/
def SetsFlag (ss : SSCB) (f : Nat) : FacadeOp → Prop
  | FacadeOp.opEfSet g => g = f
  | FacadeOp.opPvPut v _ _ _ =>
    (ss.prog.chan v).dbch = none ∧ optTest ss.prog OPT_SAFE = true ∧
      (ss.prog.chan v).syncedTo = f
  | _ => False

/-- The state `s2` is reached from `s` by a finite sequence of interface calls
none of which is `seq_efSet` on `f` or an anonymous put on a channel synced to
`f`. -/
inductive FlagQuietRun (f : Nat) : SSCB → SSCB → Prop where
  | refl (s : SSCB) : FlagQuietRun f s s
  | step {s s1 s2 : SSCB} (op : FacadeOp) :
      FlagQuietRun f s s1 → ¬ SetsFlag s1 f op → facadeStep s1 op = some s2 →
      FlagQuietRun f s s2

/-! ## Completion of a get, in the words of the specification -/

/-- Whether variable `v` is complete when `seq_pvGetComplete` looks at it: the
channel is anonymous, or no request is pending, or the completion semaphore is
acquired (`e` is the environment of the try-wait). -/
def getIsComplete (ss : SSCB) (v : Nat) (e : SemEnv) : Bool :=
  ((ss.prog.chan v).dbch).isNone || (ss.getReq v).isNone ||
    decide ((epicsEventTryWait (ss.getSem v) e).1 = epicsEventWaitStatus.epicsEventWaitOK)

/-! ## Further example states -/

/-- One channel, number 0, assigned to PV "X" but disconnected, with a get
pending: `getSem[0]` taken, request recorded. -/
def exPendingDisc : SSCB :=
  { prog := { numChans := 1
              chan := fun _ => { dbch := some { dbName := "X", connected := false } }
              assignCount := 1 }
    getSem := fun _ => false
    getReq := fun _ => some { ss := 0, ch := 0 } }

/-- Safe mode, one event flag; the anonymous channel 0 is queued with capacity 2,
its queue is full, and it is synced to flag 1, which is not set. -/
def exAnonQueued : SSCB :=
  { prog := { numChans := 1
              numEvFlags := 1
              options := OPT_SAFE
              chan := fun _ => { syncedTo := 1, queue := some { numElems := 2, elems := [1, 2] } }
              syncedChans := fun f => if f = 1 then some 0 else none } }

/-- Three channels: 0 is anonymous; 1 is assigned with a get pending
(semaphore taken); 2 is assigned with a get whose completion was posted
(semaphore signalled, request still recorded). -/
def exMixed : SSCB :=
  { prog := { numChans := 3
              chan := fun c => if c = 0 then {}
                else { dbch := some { dbName := "X", connected := true } }
              assignCount := 2
              connectCount := 2 }
    getSem := fun c => if c = 1 then false else true
    getReq := fun c => if c = 0 then none else some { ss := 0, ch := c } }

/-- A state set entered at time 1000000000 (seconds) whose wake-up time is one
second later. -/
def exDelay : SSCB :=
  { timeEntered := Dbl.fin 1000000000, wakeupTime := Dbl.fin 1000000001 }

/-- Two event flags, both set (bits 1 and 2 of the first word). -/
def exFlagsSet : SSCB :=
  { prog := { numEvFlags := 2, evFlags := fun w => if w = 0 then 6 else 0 } }

/-! ## Runs of get requests and completion callbacks -/

/-- Modelled from the spec: the completion callback of a get is not part of
`seq_if.c`.  For a request recorded in `getReq[v]` it posts `getSem[v]` and
leaves the slot as it is; when the slot is empty the callback is dropped.  The
value and the meta data that the callback delivers are not modelled. -/
def getCallback (ss : SSCB) (v : Nat) : SSCB :=
  match ss.getReq v with
  | none => ss
  | some _ => { ss with getSem := setAt ss.getSem v true }

/-- One step of a run of get requests: a call of `seq_pvGet`,
`seq_pvGetComplete` or `seq_pvGetCancel`, or a completion callback. -/
inductive GetOp where
  | opGet (v : Nat) (ct : compType) (tmo : ℚ) (env : PvEnv)
  | opGetComplete (v len : Nat) (any hasComplete : Bool) (env : Nat → SemEnv)
  | opGetCancel (v len : Nat)
  | opCallback (v : Nat)

/-- State after one step of a run of get requests; `none` when `seq_pvGet`
aborts at its assertion. -/
def getStep (ss : SSCB) : GetOp → Option SSCB
  | GetOp.opGet v ct tmo env => (seq_pvGet ss v ct tmo env).map Prod.snd
  | GetOp.opGetComplete v len any hasComplete env =>
    some (seq_pvGetComplete ss v len any hasComplete env).ss
  | GetOp.opGetCancel v len => some (seq_pvGetCancel ss v len)
  | GetOp.opCallback v => some (getCallback ss v)

/-- State after a run of get requests, steps taken from the left; `none` when
one of the steps aborts. -/
def getRun (ss : SSCB) : List GetOp → Option SSCB
  | [] => some ss
  | op :: ops => (getStep ss op).bind (fun s => getRun s ops)

/-- Every request slot is empty and every get semaphore is free. -/
def GetInitial (ss : SSCB) : Prop :=
  ∀ v, ss.getReq v = none ∧ ss.getSem v = true

/-! ## Basic facts -/

@[simp] theorem setAt_same {α : Type} (f : Nat → α) (i : Nat) (a : α) : setAt f i a i = a := by
  simp [setAt]

theorem setAt_other {α : Type} (f : Nat → α) (i j : Nat) (a : α) (h : j ≠ i) :
    setAt f i a j = f j := by
  simp [setAt, h]

theorem assigned_iff (ss : SSCB) (v : Nat) :
    seq_pvAssigned ss v = true ↔ ∃ d, (ss.prog.chan v).dbch = some d := by
  simp [seq_pvAssigned, Option.isSome_iff_exists]

/-! ## Failure recovery of `seq_pvGet` and `seq_pvPut` -/

theorem pvGet_acquire_recovers (ss : SSCB) (v : Nat) (dbch : DBCHAN) (ct : compType) (tmo : ℚ)
    (env : PvEnv) (hreq : ss.getReq v = none) (hsem : ss.getSem v = true) :
    (∀ r, pvGet_acquire ss v dbch ct tmo env = Sum.inl r →
        r.2.getReq v = none ∧ r.2.getSem v = true) ∧
    (∀ ss1, pvGet_acquire ss v dbch ct tmo env = Sum.inr ss1 → ss1.getReq v = none) := by
  obtain ⟨w1, iss, w2⟩ := env
  cases ct <;> cases w1 <;> cases hc : dbch.connected <;> by_cases ht : tmo ≤ 0 <;>
    simp [pvGet_acquire, epicsEventWaitWithTimeout, epicsEventTryWait, check_connected,
      hreq, hsem, hc, ht]

theorem pvGet_issue_recovers (ss : SSCB) (v : Nat) (dbch : DBCHAN) (ct : compType)
    (env : PvEnv) (hreq : ss.getReq v = none) :
    ∃ r, pvGet_issue ss v dbch ct env = some r ∧
      (r.1 ≠ pvStat.pvStatOK → r.2.getReq v = none ∧ r.2.getSem v = true) := by
  obtain ⟨w1, iss, w2⟩ := env
  by_cases hi : iss = pvStat.pvStatOK
  · by_cases hct : ct = compType.SYNC
    · cases w2 <;> cases hc : dbch.connected <;> cases hs : optTest ss.prog OPT_SAFE <;>
        cases hg : ss.getSem v <;>
        simp only [optTest] at hs <;>
        simp [pvGet_issue, epicsEventWaitWithTimeout, check_connected, logPv, ss_read_buffer,
          optTest, hreq, hi, hct, hc, hs, hg]
    · simp [pvGet_issue, hreq, hi, hct]
  · simp [pvGet_issue, hreq, hi, logPv]

theorem pvPut_acquire_recovers (ss : SSCB) (v : Nat) (ct : compType) (tmo : ℚ)
    (env : PvEnv) (hreq : ss.putReq v = none) (hsem : ss.putSem v = true) :
    (∀ r, pvPut_acquire ss v ct tmo env = Sum.inl r →
        r.2.putReq v = none ∧ r.2.putSem v = true) ∧
    (∀ ss1, pvPut_acquire ss v ct tmo env = Sum.inr ss1 →
        ss1.putReq v = none ∧ (ct = compType.DEFAULT → ss1.putSem v = true)) := by
  obtain ⟨w1, iss, w2⟩ := env
  cases ct <;> cases w1 <;> by_cases ht : tmo ≤ 0 <;>
    simp [pvPut_acquire, epicsEventWaitWithTimeout, epicsEventTryWait, hreq, hsem, ht]

theorem pvPut_issue_recovers (ss : SSCB) (v : Nat) (dbch : DBCHAN) (ct : compType)
    (env : PvEnv) (hreq : ss.putReq v = none)
    (hsem : ct = compType.DEFAULT → ss.putSem v = true) :
    ∃ r, pvPut_issue ss v dbch ct env = some r ∧
      (r.1 ≠ pvStat.pvStatOK → r.2.putReq v = none ∧ r.2.putSem v = true) := by
  obtain ⟨w1, iss, w2⟩ := env
  by_cases hd : ct = compType.DEFAULT
  · by_cases hi : iss = pvStat.pvStatOK <;> simp [pvPut_issue, hd, hi, logPv, hreq, hsem hd]
  · by_cases hi : iss = pvStat.pvStatOK
    · by_cases hct : ct = compType.SYNC
      · cases w2 <;> cases hc : dbch.connected <;> cases hg : ss.putSem v <;>
          simp [pvPut_issue, epicsEventWaitWithTimeout, check_connected, logPv,
            hreq, hi, hct, hc, hg]
      · simp [pvPut_issue, hreq, hi, hct, hd]
    · simp [pvPut_issue, hreq, hi, hd, logPv]

/-- C1 (as stated, refuted): with a get already pending on the assigned
variable 0, an ASYNC `seq_pvGet` returns `pvStatERROR`, yet on return the slot
`getReq[0]` still holds the pending request and `getSem[0]` is still taken. -/
theorem pvGet_failure_keeps_pending_request :
    seq_pvAssigned exPending 0 = true ∧
    (seq_pvGet exPending 0 compType.ASYNC 1 {}).map
        (fun r => (r.1, r.2.getReq 0, r.2.getSem 0)) =
      some (pvStat.pvStatERROR, some { ss := 0, ch := 0 }, false) := by
  decide

/-- C1 (amended): for an assigned variable on which no get (resp. put) of the
state set is outstanding at the call (slot empty, semaphore free), `seq_pvGet`
(resp. `seq_pvPut`) returns, and whenever the returned status is not
`pvStatOK` the slot `getReq[v]` (resp. `putReq[v]`) is empty and `getSem[v]`
(resp. `putSem[v]`) is released on return, for every completion mode, time-out
and behaviour of the environment. -/
theorem pvGet_pvPut_failure_recovery (ss : SSCB) (varId : Nat) (ct : compType) (tmo : ℚ)
    (env : PvEnv) (hassigned : seq_pvAssigned ss varId = true) :
    (ss.getReq varId = none → ss.getSem varId = true →
      ∃ r, seq_pvGet ss varId ct tmo env = some r ∧
        (r.1 ≠ pvStat.pvStatOK → r.2.getReq varId = none ∧ r.2.getSem varId = true)) ∧
    (ss.putReq varId = none → ss.putSem varId = true →
      ∃ r, seq_pvPut ss varId ct tmo env = some r ∧
        (r.1 ≠ pvStat.pvStatOK → r.2.putReq varId = none ∧ r.2.putSem varId = true)) := by
  obtain ⟨dbch, hd⟩ := (assigned_iff ss varId).1 hassigned
  constructor
  · intro hreq hsem
    unfold seq_pvGet
    rw [hd]
    simp only []
    generalize (if ct = compType.DEFAULT then
        (if optTest ss.prog OPT_ASYNC = true then compType.ASYNC else compType.SYNC)
        else ct) = ct1
    have h := pvGet_acquire_recovers ss varId dbch ct1 tmo env hreq hsem
    cases hq : pvGet_acquire ss varId dbch ct1 tmo env with
    | inl r => exact ⟨r, rfl, fun _ => h.1 r hq⟩
    | inr ss1 => exact pvGet_issue_recovers ss1 varId dbch ct1 env (h.2 ss1 hq)
  · intro hreq hsem
    unfold seq_pvPut
    rw [hd]
    cases hc : dbch.connected
    · simp [check_connected, hc, hreq, hsem]
    · simp only [check_connected, hc, Bool.not_true, Bool.false_eq_true, if_false, ne_eq,
        not_true_eq_false]
      have h := pvPut_acquire_recovers
        { ss with metaData := setAt ss.metaData varId (ss.metaData varId) } varId ct tmo env
        hreq hsem
      cases hq : pvPut_acquire
          { ss with metaData := setAt ss.metaData varId (ss.metaData varId) } varId ct tmo env with
      | inl r => exact ⟨r, rfl, fun _ => h.1 r hq⟩
      | inr ss1 => exact pvPut_issue_recovers ss1 varId dbch ct env (h.2 ss1 hq).1 (h.2 ss1 hq).2

/-- C1 (amended), instance: on the assigned, idle variable 0 an ASYNC get and
an ASYNC put whose transport call fails both return with the slot empty and the
semaphore released. -/
theorem pvGet_pvPut_failure_recovery_witness :
    seq_pvAssigned exAssigned 0 = true ∧
    (∃ r, seq_pvGet exAssigned 0 compType.ASYNC 1 { issue := pvStat.pvStatERROR } = some r ∧
        (r.1 ≠ pvStat.pvStatOK → r.2.getReq 0 = none ∧ r.2.getSem 0 = true)) ∧
    (∃ r, seq_pvPut exAssigned 0 compType.ASYNC 1 { issue := pvStat.pvStatERROR } = some r ∧
        (r.1 ≠ pvStat.pvStatOK → r.2.putReq 0 = none ∧ r.2.putSem 0 = true)) :=
  ⟨by decide,
   (pvGet_pvPut_failure_recovery exAssigned 0 compType.ASYNC 1 { issue := pvStat.pvStatERROR }
      (by decide)).1 (by decide) (by decide),
   (pvGet_pvPut_failure_recovery exAssigned 0 compType.ASYNC 1 { issue := pvStat.pvStatERROR }
      (by decide)).2 (by decide) (by decide)⟩

/-! ## Contention of ASYNC gets -/

/-- C2: if `getSem[v]` of an assigned variable is already taken (a get is
pending) and the try-wait primitive works, `seq_pvGet(ss, v, ASYNC, tmo)`
returns `pvStatERROR` for every `tmo` and leaves the whole state as it was: no
call is added to the transport log, `getReq[v]` and `getSem[v]` are
untouched. -/
theorem pvGet_async_contention (ss : SSCB) (v : Nat) (tmo : ℚ) (env : PvEnv)
    (hassigned : seq_pvAssigned ss v = true) (hsem : ss.getSem v = false)
    (hprim : env.wait1 ≠ SemEnv.fault) :
    seq_pvGet ss v compType.ASYNC tmo env = some (pvStat.pvStatERROR, ss) := by
  obtain ⟨dbch, hd⟩ := (assigned_iff ss v).1 hassigned
  obtain ⟨w1, iss, w2⟩ := env
  unfold seq_pvGet
  rw [hd]
  cases w1 <;> simp_all [pvGet_acquire, epicsEventTryWait]

/-- C2, instance: a second ASYNC get on variable 0 while the first is pending. -/
theorem pvGet_async_contention_witness :
    seq_pvAssigned exPending 0 = true ∧ exPending.getSem 0 = false ∧
    seq_pvGet exPending 0 compType.ASYNC 5 {} = some (pvStat.pvStatERROR, exPending) :=
  ⟨by decide, by decide,
   pvGet_async_contention exPending 0 5 {} (by decide) (by decide) (by decide)⟩

/-! ## `seq_pvGetComplete` after a posted completion -/

/-- C3 (as stated, refuted): after the completion of the ASYNC get on variable
0 was posted, the first `seq_pvGetComplete(ss, 0, 1, TRUE, NULL)` returns TRUE
and the next call, with no get in between, returns TRUE again, not FALSE. -/
theorem pvGetComplete_second_call_true :
    (seq_pvGetComplete exCompleted 0 1 true false (fun _ => SemEnv.silent)).ret = true ∧
    (seq_pvGetComplete
        (seq_pvGetComplete exCompleted 0 1 true false (fun _ => SemEnv.silent)).ss
        0 1 true false (fun _ => SemEnv.silent)).ret ≠ false := by
  decide

/-- C3 (amended): on an assigned variable `y` whose get completion has been
posted (`getSem[y]` signalled, request still recorded), with a working
try-wait primitive, `seq_pvGetComplete(ss, y, 1, TRUE, NULL)` returns TRUE and
empties `getReq[y]`; the next call, with no new get in between, returns TRUE
as well (a variable without pending request counts as complete). -/
theorem pvGetComplete_after_post (ss : SSCB) (y : Nat) (e1 e2 : Nat → SemEnv)
    (hassigned : seq_pvAssigned ss y = true) (hsem : ss.getSem y = true)
    (hreq : ss.getReq y ≠ none) (hprim : e1 0 ≠ SemEnv.fault) :
    (seq_pvGetComplete ss y 1 true false e1).ret = true ∧
    (seq_pvGetComplete ss y 1 true false e1).ss.getReq y = none ∧
    (seq_pvGetComplete ss y 1 true false e1).ss.getSem y = true ∧
    (seq_pvGetComplete (seq_pvGetComplete ss y 1 true false e1).ss y 1 true false e2).ret
      = true := by
  obtain ⟨dbch, hd⟩ := (assigned_iff ss y).1 hassigned
  have hbody : (pvGetComplete_body ss y (e1 0)).2 = true ∧
      (pvGetComplete_body ss y (e1 0)).1.getReq y = none ∧
      (pvGetComplete_body ss y (e1 0)).1.getSem y = true ∧
      ((pvGetComplete_body ss y (e1 0)).1.prog.chan y).dbch = some dbch := by
    unfold pvGetComplete_body
    rw [hd]
    cases he : e1 0 <;> cases hc : dbch.connected <;> cases hs : optTest ss.prog OPT_SAFE <;>
      simp only [optTest] at hs <;>
      simp_all [epicsEventTryWait, check_connected, ss_read_buffer, optTest]
  obtain ⟨h1, h2, h3, h4⟩ := hbody
  have hbody2 : (pvGetComplete_body (pvGetComplete_body ss y (e1 0)).1 y (e2 0)).2 = true := by
    generalize (pvGetComplete_body ss y (e1 0)).1 = ss1 at h2 h4
    unfold pvGetComplete_body
    rw [h4]
    simp [h2]
  simp [seq_pvGetComplete, pvGetComplete_loop, h1, h2, h3, hbody2]

/-- C3 (amended), instance on `exCompleted`. -/
theorem pvGetComplete_after_post_witness :
    seq_pvAssigned exCompleted 0 = true ∧ exCompleted.getSem 0 = true ∧
    exCompleted.getReq 0 ≠ none ∧
    (seq_pvGetComplete exCompleted 0 1 true false (fun _ => SemEnv.silent)).ret = true ∧
    (seq_pvGetComplete exCompleted 0 1 true false (fun _ => SemEnv.silent)).ss.getReq 0 = none ∧
    (seq_pvGetComplete exCompleted 0 1 true false (fun _ => SemEnv.silent)).ss.getSem 0 = true ∧
    (seq_pvGetComplete
        (seq_pvGetComplete exCompleted 0 1 true false (fun _ => SemEnv.silent)).ss
        0 1 true false (fun _ => SemEnv.signalled)).ret = true :=
  ⟨by decide, by decide, by decide,
   pvGetComplete_after_post exCompleted 0 (fun _ => SemEnv.silent) (fun _ => SemEnv.signalled)
     (by decide) (by decide) (by decide) (by decide)⟩

/-! ## Completion time-out of a SYNC get -/

/-- A SYNC get on an idle, connected variable whose completion arrives returns
`pvStatOK`. -/
theorem pvGet_sync_completes (ss : SSCB) (y : Nat) (dbch : DBCHAN) (tmo : ℚ) (env : PvEnv)
    (hd : (ss.prog.chan y).dbch = some dbch) (hconn : dbch.connected = true)
    (hsem : ss.getSem y = true) (hreq : ss.getReq y = none) (htmo : 0 < tmo)
    (hprim : env.wait1 ≠ SemEnv.fault) (hissue : env.issue = pvStat.pvStatOK)
    (hdone : env.wait2 = SemEnv.signalled) :
    ∃ ss1, seq_pvGet ss y compType.SYNC tmo env = some (pvStat.pvStatOK, ss1) := by
  obtain ⟨w1, iss, w2⟩ := env
  simp only at hprim hissue hdone
  subst hissue hdone
  unfold seq_pvGet
  rw [hd]
  cases w1 <;> cases hs : optTest ss.prog OPT_SAFE <;> simp only [optTest] at hs <;>
    simp_all [pvGet_acquire, pvGet_issue, epicsEventWaitWithTimeout, check_connected, logPv,
      not_le.mpr htmo, optTest]

/-- A SYNC get on an idle, connected variable whose completion does not arrive
in time: the returned status and the state on return. -/
theorem pvGet_sync_timeout_state (ss : SSCB) (y : Nat) (dbch : DBCHAN) (tmo : ℚ) (env : PvEnv)
    (hd : (ss.prog.chan y).dbch = some dbch) (hconn : dbch.connected = true)
    (hsem : ss.getSem y = true) (hreq : ss.getReq y = none) (htmo : 0 < tmo)
    (hprim : env.wait1 ≠ SemEnv.fault) (hissue : env.issue = pvStat.pvStatOK)
    (hlate : env.wait2 = SemEnv.silent) :
    ∃ ss1, seq_pvGet ss y compType.SYNC tmo env = some (pvStat.pvStatTIMEOUT, ss1) ∧
      (ss1.metaData y).status = pvStat.pvStatTIMEOUT ∧
      (ss1.metaData y).severity = pvSevr.pvSevrMAJOR ∧
      ss1.getReq y = none ∧ ss1.getSem y = true ∧ ss1.prog.chan = ss.prog.chan := by
  obtain ⟨w1, iss, w2⟩ := env
  simp only at hprim hissue hlate
  subst hissue hlate
  unfold seq_pvGet
  rw [hd]
  cases w1 <;>
    simp_all [pvGet_acquire, pvGet_issue, epicsEventWaitWithTimeout, check_connected, logPv,
      not_le.mpr htmo]

/-- On an assigned, connected variable `y` with free `getSem[y]` and empty
`getReq[y]`, for `tmo > 0`: if the transport accepts the request and the
completion wait times out, `seq_pvGet(ss, y, SYNC, tmo)` returns
`pvStatTIMEOUT` with `meta.status = pvStatTIMEOUT`,
`meta.severity = pvSevrMAJOR`, `getReq[y]` empty and `getSem[y]` released; and a
subsequent SYNC get on `y` whose completion arrives returns `pvStatOK`. -/
theorem pvGet_sync_timeout_then_ok (ss : SSCB) (y : Nat) (dbch : DBCHAN) (tmo : ℚ)
    (env : PvEnv)
    (hd : (ss.prog.chan y).dbch = some dbch) (hconn : dbch.connected = true)
    (hsem : ss.getSem y = true) (hreq : ss.getReq y = none)
    (htmo : 0 < tmo) (hprim : env.wait1 ≠ SemEnv.fault)
    (hissue : env.issue = pvStat.pvStatOK) (hlate : env.wait2 = SemEnv.silent) :
    ∃ ss1, seq_pvGet ss y compType.SYNC tmo env = some (pvStat.pvStatTIMEOUT, ss1) ∧
      (ss1.metaData y).status = pvStat.pvStatTIMEOUT ∧
      (ss1.metaData y).severity = pvSevr.pvSevrMAJOR ∧
      ss1.getReq y = none ∧ ss1.getSem y = true ∧
      ∀ (tmo2 : ℚ) (env2 : PvEnv), 0 < tmo2 → env2.wait1 ≠ SemEnv.fault →
        env2.issue = pvStat.pvStatOK → env2.wait2 = SemEnv.signalled →
        ∃ ss2, seq_pvGet ss1 y compType.SYNC tmo2 env2 = some (pvStat.pvStatOK, ss2) := by
  obtain ⟨ss1, h1, h2, h3, h4, h5, h6⟩ :=
    pvGet_sync_timeout_state ss y dbch tmo env hd hconn hsem hreq htmo hprim hissue hlate
  refine ⟨ss1, h1, h2, h3, h4, h5, ?_⟩
  intro tmo2 env2 ht2 hp2 hi2 hw2
  exact pvGet_sync_completes ss1 y dbch tmo2 env2 (by rw [h6]; exact hd) hconn h5 h4 ht2 hp2 hi2 hw2

/-- C4 (code evaluated at the failing input): from the initial state
`exAssigned` an ASYNC `seq_pvGet` on variable 0 followed by its completion
callback reaches a state in which variable 0 is assigned and connected and
`getSem[0]` is free, while `getReq[0]` still holds the request.  There
`seq_pvGet(ss, 0, SYNC, 1)`, with a transport that accepts the request and a
completion that does not arrive, does not return `pvStatTIMEOUT`: it aborts at
the assertion `ss->getReq[varId] == NULL`.  The same call in the initial state
returns `pvStatTIMEOUT` with `meta.status = pvStatTIMEOUT`,
`meta.severity = pvSevrMAJOR`, `getReq[0]` empty and `getSem[0]` released. -/
theorem pvGet_sync_timeout_stale_request :
    GetInitial exAssigned ∧
    ∃ s, getRun exAssigned [GetOp.opGet 0 compType.ASYNC 1 {}, GetOp.opCallback 0] = some s ∧
      (s.prog.chan 0).dbch = some { dbName := "X", connected := true } ∧
      s.getSem 0 = true ∧ (0 : ℚ) < 1 ∧
      (seq_pvGet s 0 compType.SYNC 1
        { wait1 := SemEnv.silent, issue := pvStat.pvStatOK, wait2 := SemEnv.silent }).isSome =
        false ∧
      (seq_pvGet exAssigned 0 compType.SYNC 1
        { wait1 := SemEnv.silent, issue := pvStat.pvStatOK, wait2 := SemEnv.silent }).map
        (fun r => (r.1, (r.2.metaData 0).status, (r.2.metaData 0).severity,
          r.2.getReq 0, r.2.getSem 0)) =
        some (pvStat.pvStatTIMEOUT, pvStat.pvStatTIMEOUT, pvSevr.pvSevrMAJOR, none, true) := by
  refine ⟨fun _ => ⟨rfl, rfl⟩, _, rfl, ?_, ?_, ?_, ?_, ?_⟩
  · decide
  · decide
  · norm_num
  · decide
  · decide

/-! ## Transport errors and the meta data -/

/-- C5 (code evaluated at the failing input): on the connected channel 0 with
meta data `pvStatOK` / `pvSevrOK`, a failing transport call makes `seq_pvGet`
return the failure with meta `pvStatERROR` / `pvSevrMAJOR`, whereas `seq_pvPut`
returns the failure and leaves the meta data at `pvStatOK` / `pvSevrOK`, in
DEFAULT mode (`pvVarPutNoBlock`) as well as in ASYNC and SYNC mode
(`pvVarPutCallback`). -/
theorem pvPut_transport_error_meta_untouched :
    (seq_pvGet exAssigned 0 compType.ASYNC 1 { issue := pvStat.pvStatERROR }).map
        (fun r => (r.1, (r.2.metaData 0).status, (r.2.metaData 0).severity)) =
      some (pvStat.pvStatERROR, pvStat.pvStatERROR, pvSevr.pvSevrMAJOR) ∧
    (seq_pvPut exAssigned 0 compType.DEFAULT 1 { issue := pvStat.pvStatERROR }).map
        (fun r => (r.1, (r.2.metaData 0).status, (r.2.metaData 0).severity)) =
      some (pvStat.pvStatERROR, pvStat.pvStatOK, pvSevr.pvSevrOK) ∧
    (seq_pvPut exAssigned 0 compType.ASYNC 1 { issue := pvStat.pvStatERROR }).map
        (fun r => (r.1, (r.2.metaData 0).status, (r.2.metaData 0).severity)) =
      some (pvStat.pvStatERROR, pvStat.pvStatOK, pvSevr.pvSevrOK) ∧
    (seq_pvPut exAssigned 0 compType.SYNC 1 { issue := pvStat.pvStatERROR }).map
        (fun r => (r.1, (r.2.metaData 0).status, (r.2.metaData 0).severity)) =
      some (pvStat.pvStatERROR, pvStat.pvStatOK, pvSevr.pvSevrOK) := by
  decide

/-! ## `seq_pvAssign` -/

/-- C6 (code evaluated at the failing input): `seq_pvAssign(ss, 0, "")` on the
assigned channel 0 decrements `assignCount` from 1 to 0 and frees the `DBCHAN`
block, but `ch->dbch` keeps pointing to it: `seq_pvAssigned` is still TRUE and
`seq_pvName` still yields the old name instead of `NULL`. -/
theorem pvAssign_empty_keeps_dbch :
    seq_pvAssigned exAssigned 0 = true ∧ seq_pvAssignCount exAssigned = 1 ∧
    (seq_pvAssign exAssigned 0 "" {}).1 = pvStat.pvStatOK ∧
    seq_pvAssignCount (seq_pvAssign exAssigned 0 "" {}).2 = 0 ∧
    seq_pvAssigned (seq_pvAssign exAssigned 0 "" {}).2 0 = true ∧
    seq_pvName (seq_pvAssign exAssigned 0 "" {}).2 0 = some "X" ∧
    (((seq_pvAssign exAssigned 0 "" {}).2.prog.chan 0).dbch.map fun d => d.freed) = some true := by
  decide

/-- C7 (code evaluated at the failing input): from a one-channel program with
the channel assigned and connected (`connectCount = assignCount = numChans =
1`), two calls `seq_pvAssign(ss, 0, "")` leave `assignCount = 4294967295`,
which is greater than `numChans`: the second call still finds `ch->dbch`
non-NULL and decrements the counter again. -/
theorem pvAssign_twice_breaks_counters :
    seq_pvConnectCount exAssigned ≤ seq_pvAssignCount exAssigned ∧
    seq_pvAssignCount exAssigned ≤ seq_pvChannelCount exAssigned ∧
    seq_pvAssignCount (seq_pvAssign (seq_pvAssign exAssigned 0 "" {}).2 0 "" {}).2
      = 4294967295 ∧
    seq_pvChannelCount (seq_pvAssign (seq_pvAssign exAssigned 0 "" {}).2 0 "" {}).2 = 1 ∧
    ¬ (seq_pvAssignCount (seq_pvAssign (seq_pvAssign exAssigned 0 "" {}).2 0 "" {}).2 ≤
        seq_pvChannelCount (seq_pvAssign (seq_pvAssign exAssigned 0 "" {}).2 0 "" {}).2) := by
  decide

/-- C8 (code evaluated at the failing input): on the unassigned channel 0,
`seq_pvAssign(ss, 0, "X")` with a failing `pvVarCreate` returns the failure
status, but the program is not as before: `ch->dbch` points to the freed block,
so `seq_pvAssigned` is TRUE, and `assignCount` went from 0 to 1. -/
theorem pvAssign_create_failure_not_unwound :
    seq_pvAssigned exUnassigned 0 = false ∧ seq_pvAssignCount exUnassigned = 0 ∧
    (seq_pvAssign exUnassigned 0 "X" { create := pvStat.pvStatERROR }).1 = pvStat.pvStatERROR ∧
    seq_pvAssigned (seq_pvAssign exUnassigned 0 "X" { create := pvStat.pvStatERROR }).2 0
      = true ∧
    seq_pvAssignCount (seq_pvAssign exUnassigned 0 "X" { create := pvStat.pvStatERROR }).2
      = 1 ∧
    (((seq_pvAssign exUnassigned 0 "X" { create := pvStat.pvStatERROR }).2.prog.chan 0).dbch.map
        fun d => d.freed) = some true := by
  decide


/-! ## Sync lists -/

theorem IsChain.congr {next next2 : Nat → Option Nat} :
    ∀ {l : List Nat} {h : Option Nat}, (∀ c ∈ l, next2 c = next c) →
      IsChain next h l → IsChain next2 h l
  | [], _, _, hc => hc
  | c :: l, _, hagree, hc => by
    refine ⟨hc.1, ?_⟩
    rw [hagree c (List.mem_cons_self c l)]
    exact IsChain.congr (fun d hd => hagree d (List.mem_cons_of_mem c hd)) hc.2

theorem IsChain.unique {next : Nat → Option Nat} :
    ∀ {l1 l2 : List Nat} {h : Option Nat}, IsChain next h l1 → IsChain next h l2 → l1 = l2
  | [], [], _, _, _ => rfl
  | [], c :: l, _, h1, h2 => by
    simp only [IsChain] at h1 h2
    rw [h1] at h2
    exact absurd h2.1 (by simp)
  | c :: l, [], _, h1, h2 => by
    simp only [IsChain] at h1 h2
    rw [h2] at h1
    exact absurd h1.1 (by simp)
  | c :: l, d :: l2, _, h1, h2 => by
    simp only [IsChain] at h1 h2
    have hcd : c = d := by
      have hsome := h1.1.symm.trans h2.1
      simpa using hsome
    subst hcd
    rw [IsChain.unique h1.2 h2.2]

/-- Unlinking the element after `pre`: the pointer of the last element of `pre` is
redirected to the successor of `tc`. -/
theorem IsChain.unlink {next : Nat → Option Nat} (tc : Nat) (post : List Nat) :
    ∀ (a : Nat) (pre : List Nat) (h : Option Nat),
      IsChain next h (a :: pre ++ tc :: post) → (a :: pre ++ tc :: post).Nodup →
      IsChain (setAt next ((a :: pre).getLast (List.cons_ne_nil a pre)) (next tc)) h
        (a :: pre ++ post)
  | a, [], h, hc, hnd => by
    simp only [List.cons_append, List.nil_append, IsChain, List.getLast_singleton] at hc ⊢
    refine ⟨hc.1, ?_⟩
    rw [setAt_same]
    have ha : a ∉ post := by
      intro hmem
      simp only [List.cons_append, List.nil_append, List.nodup_cons, List.mem_cons] at hnd
      exact hnd.1 (Or.inr hmem)
    exact IsChain.congr (fun d hd => setAt_other _ _ _ _ (fun hda => ha (hda ▸ hd))) hc.2.2
  | a, b :: pre, h, hc, hnd => by
    simp only [List.cons_append, IsChain] at hc ⊢
    have hnd2 : (b :: pre ++ tc :: post).Nodup := by
      simp only [List.cons_append, List.nodup_cons] at hnd ⊢
      exact hnd.2
    have ha : a ∉ b :: pre := by
      intro hmem
      simp only [List.cons_append, List.nodup_cons] at hnd
      exact hnd.1 (by
        rcases List.mem_cons.1 hmem with h1 | h1
        · exact List.mem_cons.2 (Or.inl h1)
        · exact List.mem_cons.2 (Or.inr (List.mem_append_left _ h1)))
    have hlast : (a :: b :: pre).getLast (List.cons_ne_nil a (b :: pre))
        = (b :: pre).getLast (List.cons_ne_nil b pre) := by
      simp
    rw [hlast]
    have hne : a ≠ (b :: pre).getLast (List.cons_ne_nil b pre) := by
      intro heq
      exact ha (heq ▸ List.getLast_mem _)
    refine ⟨hc.1, ?_⟩
    rw [setAt_other _ _ _ _ hne]
    have hrec := IsChain.unlink tc post b pre (next a) (by simpa [IsChain] using hc.2) hnd2
    simpa [IsChain] using hrec

/-- The `while` loop finds the channel in front of `tc`: the last element of
the part of the list that precedes `tc`. -/
theorem findPrev_chain (chan : Nat → CHAN) (tc : Nat) (post : List Nat) :
    ∀ (pre : List Nat) (a : Nat) (h : Option Nat) (fuel : Nat),
      IsChain (fun c => (chan c).nextSynced) h (a :: pre ++ tc :: post) →
      tc ∉ pre → pre.length < fuel →
      findPrev chan tc fuel a = some ((a :: pre).getLast (List.cons_ne_nil a pre))
  | [], a, h, fuel, hc, _, hfuel => by
    obtain ⟨k, rfl⟩ : ∃ k, fuel = k + 1 := ⟨fuel - 1, by simp at hfuel; omega⟩
    simp only [List.cons_append, List.nil_append, IsChain] at hc
    simp [findPrev, hc.2.1]
  | b :: pre, a, h, fuel, hc, hnot, hfuel => by
    obtain ⟨k, rfl⟩ : ∃ k, fuel = k + 1 := ⟨fuel - 1, by simp at hfuel; omega⟩
    simp only [List.cons_append, IsChain] at hc
    have hb : b ≠ tc := fun hb => hnot (hb ▸ List.mem_cons_self b pre)
    have hrec := findPrev_chain chan tc post pre b ((chan a).nextSynced) k
      (by simpa [IsChain] using hc.2) (fun hm => hnot (List.mem_cons_of_mem b hm))
      (by simp at hfuel; omega)
    simp [findPrev, hc.2.1, hb, hrec]

theorem nodup_length_le (l : List Nat) (n : Nat) (hnd : l.Nodup) (hlt : ∀ c ∈ l, c < n) :
    l.length ≤ n := by
  have hsub : l ⊆ List.range n := fun c hc => List.mem_range.2 (hlt c hc)
  simpa using (List.subperm_of_subset hnd hsub).length_le

theorem nextOf_setAt (sp : PROG) (p : Nat) (x : Option Nat) (chans : Nat → CHAN)
    (c : Nat) (hch : chans = setAt sp.chan p { sp.chan p with nextSynced := x }) :
    (chans c).nextSynced = setAt (nextOf sp) p x c := by
  subst hch
  by_cases h : c = p
  · subst h; simp [nextOf]
  · simp [setAt, h, nextOf]

/-- Effect of the unlink step on the list of `old`, given that this list is `l`
and contains `tc`. -/
theorem pvSync_unlink_spec (sp : PROG) (tc old : Nat) (l : List Nat)
    (hl : SyncedList sp old l) (hnd : l.Nodup) (hmem : tc ∈ l)
    (hlen : l.length ≤ sp.numChans) :
    ∃ sp1, pvSync_unlink sp tc old = some sp1 ∧
      SyncedList sp1 old (l.erase tc) ∧
      sp1.numChans = sp.numChans ∧ sp1.numEvFlags = sp.numEvFlags ∧
      (∀ g, g ≠ old → sp1.syncedChans g = sp.syncedChans g) ∧
      (∀ c, c ∉ l → nextOf sp1 c = nextOf sp c) ∧
      (∀ c, (sp1.chan c).syncedTo = (sp.chan c).syncedTo) := by
  obtain ⟨pre, post, rfl⟩ := List.append_of_mem hmem
  cases pre with
  | nil =>
    simp only [List.nil_append, SyncedList, IsChain] at hl
    have hpost : tc ∉ post := by
      simp only [List.nil_append, List.nodup_cons] at hnd
      exact hnd.1
    have hrun : pvSync_unlink sp tc old = some { sp with
        syncedChans := setAt sp.syncedChans old (sp.chan tc).nextSynced
        chan := setAt sp.chan tc { sp.chan tc with nextSynced := none } } := by
      simp [pvSync_unlink, hl.1]
    refine ⟨_, hrun, ?_, rfl, rfl, ?_, ?_, ?_⟩
    · simp only [List.nil_append, List.erase_cons_head, SyncedList, setAt_same]
      refine IsChain.congr (fun d hd => ?_) hl.2
      have hdt : d ≠ tc := fun h => hpost (h ▸ hd)
      simp [nextOf, setAt, hdt]
    · intro g hg
      simp [setAt, hg]
    · intro c hc
      have hct : c ≠ tc := fun h => hc (by simp [h])
      simp [nextOf, setAt, hct]
    · intro c
      by_cases hct : c = tc
      · subst hct; simp
      · simp [setAt, hct]
  | cons a pre =>
    have hl2 := hl
    simp only [List.cons_append, SyncedList, IsChain] at hl2
    have hthis : tc ∉ a :: pre := by
      intro hm
      have hdis := (List.nodup_append.1 hnd).2.2
      exact hdis hm (List.mem_cons_self tc post)
    have ha : a ≠ tc := fun h => hthis (h ▸ List.mem_cons_self a pre)
    have hfuel : pre.length < sp.numChans := by
      simp only [List.cons_append, List.length_cons, List.length_append] at hlen
      omega
    have hfind := findPrev_chain sp.chan tc post pre a (sp.syncedChans old) sp.numChans
      hl (fun hm => hthis (List.mem_cons_of_mem a hm)) hfuel
    have hplast : (a :: pre).getLast (List.cons_ne_nil a pre) ∈ a :: pre := List.getLast_mem _
    have hun := IsChain.unlink tc post a pre (sp.syncedChans old) hl hnd
    generalize (a :: pre).getLast (List.cons_ne_nil a pre) = p at hfind hplast hun
    have hrun : pvSync_unlink sp tc old = some { sp with
        chan := setAt sp.chan p { sp.chan p with nextSynced := (sp.chan tc).nextSynced } } := by
      simp [pvSync_unlink, hl2.1, ha, hfind]
    refine ⟨_, hrun, ?_, rfl, rfl, ?_, ?_, ?_⟩
    · have herase : (a :: pre ++ tc :: post).erase tc = a :: pre ++ post := by
        rw [List.erase_append_right _ hthis, List.erase_cons_head]
      rw [herase]
      simp only [SyncedList]
      refine IsChain.congr (fun d _ => ?_) hun
      exact nextOf_setAt sp _ _ _ d rfl
    · intro g _
      rfl
    · intro c hc
      have hcp : c ≠ p := by
        intro h
        exact hc (h ▸ List.mem_append_left _ hplast)
      simp only [nextOf]
      rw [nextOf_setAt sp _ _ _ c rfl, setAt_other _ _ _ _ hcp]
      rfl
    · intro c
      by_cases hcp : c = p
      · rw [hcp]; simp
      · simp [setAt, hcp]

/-- Under the invariant, whatever list starts at `syncedChans[f]` is duplicate
free and holds exactly the channels synced to `f`. -/
theorem SyncInv.props {sp : PROG} (hinv : SyncInv sp) {f : Nat} {l : List Nat}
    (h1 : 1 ≤ f) (h2 : f ≤ sp.numEvFlags) (hl : SyncedList sp f l) :
    l.Nodup ∧ ∀ c, c ∈ l ↔ (c < sp.numChans ∧ (sp.chan c).syncedTo = f) := by
  obtain ⟨l0, hl0, hnd, hm⟩ := hinv f h1 h2
  have heq : l = l0 := IsChain.unique hl hl0
  subst heq
  exact ⟨hnd, hm⟩

/-- First half of the loop body: after removing `tc` from the list of its old
flag (if any), every list is the former one without `tc`. -/
theorem pvSync_remove_spec (sp : PROG) (tc : Nat) (hinv : SyncInv sp)
    (hvalid : SyncedToValid sp) (htc : tc < sp.numChans) :
    ∃ sp1, (if (sp.chan tc).syncedTo ≠ 0 then pvSync_unlink sp tc (sp.chan tc).syncedTo
            else some sp) = some sp1 ∧
      sp1.numChans = sp.numChans ∧ sp1.numEvFlags = sp.numEvFlags ∧
      (∀ c, (sp1.chan c).syncedTo = (sp.chan c).syncedTo) ∧
      (∀ f l, 1 ≤ f → f ≤ sp.numEvFlags → SyncedList sp f l →
        SyncedList sp1 f (l.erase tc)) := by
  by_cases hold : (sp.chan tc).syncedTo = 0
  · refine ⟨sp, by simp [hold], rfl, rfl, fun _ => rfl, ?_⟩
    intro f l h1 h2 hl
    have hp := hinv.props h1 h2 hl
    have hnot : tc ∉ l := by
      intro hm
      have := ((hp.2 tc).1 hm).2
      omega
    rw [List.erase_of_not_mem hnot]
    exact hl
  · have ho1 : 1 ≤ (sp.chan tc).syncedTo := Nat.one_le_iff_ne_zero.2 hold
    have ho2 : (sp.chan tc).syncedTo ≤ sp.numEvFlags := hvalid tc htc
    obtain ⟨l0, hl0, hnd0, hm0⟩ := hinv _ ho1 ho2
    have hmem : tc ∈ l0 := (hm0 tc).2 ⟨htc, rfl⟩
    have hlen : l0.length ≤ sp.numChans :=
      nodup_length_le l0 sp.numChans hnd0 (fun c hc => ((hm0 c).1 hc).1)
    obtain ⟨sp1, hrun, hlist, hn, he, hsc, hnext, hst⟩ :=
      pvSync_unlink_spec sp tc _ l0 hl0 hnd0 hmem hlen
    refine ⟨sp1, by simp [hold, hrun], hn, he, hst, ?_⟩
    intro f l h1 h2 hl
    by_cases hf : f = (sp.chan tc).syncedTo
    · subst hf
      have heq : l = l0 := IsChain.unique hl hl0
      subst heq
      exact hlist
    · have hp := hinv.props h1 h2 hl
      have hnot : tc ∉ l := by
        intro hm
        exact hf ((hp.2 tc).1 hm).2.symm
      rw [List.erase_of_not_mem hnot]
      simp only [SyncedList]
      rw [hsc f hf]
      refine IsChain.congr (fun c hc => ?_) hl
      apply hnext
      intro hc0
      have e1 := ((hp.2 c).1 hc).2
      have e2 := ((hm0 c).1 hc0).2
      exact hf (e1.symm.trans e2)

/-- Effect of one iteration of the loop of `seq_pvSync` on the lists and on
`syncedTo`. -/
theorem pvSync_body_spec (sp : PROG) (tc new : Nat) (hinv : SyncInv sp)
    (hvalid : SyncedToValid sp) (htc : tc < sp.numChans) :
    ∃ sp1, pvSync_body sp tc new = some sp1 ∧
      sp1.numChans = sp.numChans ∧ sp1.numEvFlags = sp.numEvFlags ∧
      (∀ c, (sp1.chan c).syncedTo = if c = tc then new else (sp.chan c).syncedTo) ∧
      (∀ f l, 1 ≤ f → f ≤ sp.numEvFlags → SyncedList sp f l →
        SyncedList sp1 f
          (if (sp.chan tc).syncedTo = new then l
           else if f = new then tc :: l.erase tc else l.erase tc)) := by
  by_cases hsame : (sp.chan tc).syncedTo = new
  · refine ⟨sp, by simp [pvSync_body, hsame], rfl, rfl, ?_, ?_⟩
    · intro c
      by_cases hc : c = tc
      · subst hc; simp [hsame]
      · simp [hc]
    · intro f l _ _ hl
      simpa [hsame] using hl
  · obtain ⟨sp1, hrun, hn, he, hst, hlists⟩ := pvSync_remove_spec sp tc hinv hvalid htc
    by_cases hnew : new = 0
    · subst hnew
      refine ⟨{ sp1 with chan := setAt sp1.chan tc { sp1.chan tc with syncedTo := 0 } },
        by unfold pvSync_body; dsimp only; rw [if_pos hsame, hrun]; rfl, hn, he, ?_, ?_⟩
      · intro c
        by_cases hc : c = tc
        · subst hc; simp
        · simp [setAt, hc, hst]
      · intro f l h1 h2 hl
        have hf : f ≠ 0 := by omega
        simp only [hsame, if_false, hf]
        have h := hlists f l h1 h2 hl
        simp only [SyncedList] at h ⊢
        refine IsChain.congr (fun c _ => ?_) h
        by_cases hc : c = tc
        · subst hc; simp [nextOf]
        · simp [nextOf, setAt, hc]
    · refine ⟨{ sp1 with
          syncedChans := setAt sp1.syncedChans new (some tc)
          chan := setAt (setAt sp1.chan tc { sp1.chan tc with syncedTo := new }) tc
            { sp1.chan tc with syncedTo := new, nextSynced := sp1.syncedChans new } },
        by unfold pvSync_body; dsimp only; rw [if_pos hsame, hrun]; simp [hnew],
        hn, he, ?_, ?_⟩
      · intro c
        by_cases hc : c = tc
        · subst hc; simp
        · simp [setAt, hc, hst]
      · intro f l h1 h2 hl
        have hp := hinv.props h1 h2 hl
        have hnot : tc ∉ l.erase tc := hp.1.not_mem_erase
        have h := hlists f l h1 h2 hl
        have hagree : ∀ c ∈ l.erase tc,
            nextOf { sp1 with
              syncedChans := setAt sp1.syncedChans new (some tc)
              chan := setAt (setAt sp1.chan tc { sp1.chan tc with syncedTo := new }) tc
                { sp1.chan tc with syncedTo := new, nextSynced := sp1.syncedChans new } } c
              = nextOf sp1 c := by
          intro c hc
          have hct : c ≠ tc := fun h => hnot (h ▸ hc)
          simp [nextOf, setAt, hct]
        simp only [hsame, if_false]
        by_cases hf : f = new
        · subst hf
          simp only [if_true, SyncedList, IsChain, setAt_same, true_and]
          have hhead : nextOf { sp1 with
              syncedChans := setAt sp1.syncedChans f (some tc)
              chan := setAt (setAt sp1.chan tc { sp1.chan tc with syncedTo := f }) tc
                { sp1.chan tc with syncedTo := f, nextSynced := sp1.syncedChans f } } tc
              = sp1.syncedChans f := by
            simp [nextOf]
          rw [hhead]
          exact IsChain.congr hagree h
        · simp only [hf, if_false, SyncedList]
          rw [setAt_other _ _ _ _ hf]
          exact IsChain.congr hagree h

/-- One iteration of the loop of `seq_pvSync` succeeds and keeps the invariant. -/
theorem pvSync_body_inv (sp : PROG) (tc new : Nat) (hinv : SyncInv sp)
    (hvalid : SyncedToValid sp) (htc : tc < sp.numChans) (hnew : new ≤ sp.numEvFlags) :
    ∃ sp1, pvSync_body sp tc new = some sp1 ∧ SyncInv sp1 ∧ SyncedToValid sp1 ∧
      sp1.numChans = sp.numChans ∧ sp1.numEvFlags = sp.numEvFlags ∧
      (∀ c, (sp1.chan c).syncedTo = if c = tc then new else (sp.chan c).syncedTo) := by
  obtain ⟨sp1, hrun, hn, he, hst, hlists⟩ := pvSync_body_spec sp tc new hinv hvalid htc
  refine ⟨sp1, hrun, ?_, ?_, hn, he, hst⟩
  · intro f h1 h2
    rw [he] at h2
    obtain ⟨l, hl, hnd, hm⟩ := hinv f h1 h2
    refine ⟨_, hlists f l h1 h2 hl, ?_, ?_⟩
    · by_cases hsame : (sp.chan tc).syncedTo = new
      · simpa [hsame] using hnd
      · by_cases hf : f = new
        · simp only [hsame, hf, if_false, if_true, List.nodup_cons]
          exact ⟨hnd.not_mem_erase, hnd.erase tc⟩
        · simp only [hsame, hf, if_false]
          exact hnd.erase tc
    · intro c
      rw [hn, hst c]
      by_cases hsame : (sp.chan tc).syncedTo = new
      · simp only [hsame, if_true]
        rw [hm c]
        by_cases hc : c = tc
        · subst hc; simp [hsame]
        · simp [hc]
      · by_cases hc : c = tc
        · subst hc
          by_cases hf : f = new
          · subst hf; simp [hsame, htc]
          · have hf2 : new ≠ f := fun h => hf h.symm
            simp [hsame, hf, hf2, hnd.not_mem_erase]
        · have hmem : c ∈ l.erase tc ↔ c ∈ l := List.mem_erase_of_ne hc
          by_cases hf : f = new
          · simp only [hsame, hf, if_false, if_true, List.mem_cons, hc, false_or]
            rw [hmem, hm c, hf]
          · simp only [hsame, hf, if_false, hc]
            rw [hmem, hm c]
  · intro c hc
    rw [hn] at hc
    rw [hst c, he]
    by_cases hct : c = tc
    · simp [hct, hnew]
    · simpa [hct] using hvalid c hc

/-- The whole loop of `seq_pvSync` succeeds, keeps the invariant and rebinds
exactly the channels `varId .. varId+length-1`. -/
theorem pvSync_loop_inv (varId new : Nat) :
    ∀ (length : Nat) (sp : PROG), SyncInv sp → SyncedToValid sp →
      varId + length ≤ sp.numChans → new ≤ sp.numEvFlags →
      ∃ sp1, pvSync_loop varId new length sp = some sp1 ∧ SyncInv sp1 ∧ SyncedToValid sp1 ∧
        sp1.numChans = sp.numChans ∧ sp1.numEvFlags = sp.numEvFlags ∧
        (∀ c, (sp1.chan c).syncedTo =
          if varId ≤ c ∧ c < varId + length then new else (sp.chan c).syncedTo)
  | 0, sp, hinv, hvalid, _, _ => by
    refine ⟨sp, rfl, hinv, hvalid, rfl, rfl, ?_⟩
    intro c
    have hno : ¬ (varId ≤ c ∧ c < varId + 0) := by omega
    rw [if_neg hno]
  | length + 1, sp, hinv, hvalid, hrange, hnew => by
    obtain ⟨sp1, hrun1, hinv1, hvalid1, hn1, he1, hst1⟩ :=
      pvSync_loop_inv varId new length sp hinv hvalid (by omega) hnew
    obtain ⟨sp2, hrun2, hinv2, hvalid2, hn2, he2, hst2⟩ :=
      pvSync_body_inv sp1 (varId + length) new hinv1 hvalid1 (by omega) (by omega)
    refine ⟨sp2, by simp [pvSync_loop, hrun1, hrun2], hinv2, hvalid2, by omega, by omega, ?_⟩
    intro c
    rw [hst2 c, hst1 c]
    by_cases h1 : c = varId + length
    · have h2 : varId ≤ c ∧ c < varId + (length + 1) := by omega
      simp [h1]
    · by_cases h2 : varId ≤ c ∧ c < varId + length
      · have h3 : varId ≤ c ∧ c < varId + (length + 1) := by omega
        simp [h1, h2, h3]
      · have h3 : ¬ (varId ≤ c ∧ c < varId + (length + 1)) := by omega
        simp [h1, h2, h3]

/-- C9: if every channel's `syncedTo` is 0 or a flag of the program and, for
every flag `f` in `[1..numEvFlags]`, the `nextSynced` list starting at
`syncedChans[f]` is finite and holds exactly the channels whose `syncedTo` is
`f`, each once, then `seq_pvSync(ss, varId, length, newFlag)` with
`newFlag <= numEvFlags` on existing channels returns with the same property
holding again, every channel in `[varId, varId+length)` has
`syncedTo = newFlag`, and `syncedTo` of every other channel is unchanged. -/
theorem pvSync_keeps_sync_lists (ss : SSCB) (varId length newFlag : Nat)
    (hvalid : SyncedToValid ss.prog) (hinv : SyncInv ss.prog)
    (hrange : varId + length ≤ ss.prog.numChans) (hflag : newFlag ≤ ss.prog.numEvFlags) :
    ∃ ss1, seq_pvSync ss varId length newFlag = some ss1 ∧
      SyncInv ss1.prog ∧ SyncedToValid ss1.prog ∧
      (∀ c, varId ≤ c → c < varId + length → (ss1.prog.chan c).syncedTo = newFlag) ∧
      (∀ c, ¬ (varId ≤ c ∧ c < varId + length) →
        (ss1.prog.chan c).syncedTo = (ss.prog.chan c).syncedTo) := by
  obtain ⟨sp1, hrun, hinv1, hvalid1, _, _, hst⟩ :=
    pvSync_loop_inv varId newFlag length ss.prog hinv hvalid hrange hflag
  refine ⟨{ ss with prog := sp1 }, by simp [seq_pvSync, hflag, hrun], hinv1, hvalid1, ?_, ?_⟩
  · intro c h1 h2
    rw [hst c]
    simp [h1, h2]
  · intro c hc
    rw [hst c]
    simp [hc]

theorem exSynced_valid : SyncedToValid exSynced.prog := by
  intro c hc
  have hc3 : c < 3 := hc
  interval_cases c <;> decide

theorem exSynced_inv : SyncInv exSynced.prog := by
  intro f h1 h2
  have h2b : f ≤ 2 := h2
  have hf : f = 1 ∨ f = 2 := by omega
  rcases hf with rfl | rfl
  · refine ⟨[2, 0], by decide, by decide, ?_⟩
    intro c
    by_cases hc : c < 3
    · interval_cases c <;> simp [exSynced]
    · have h0 : c ≠ 0 := by omega
      have h2 : c ≠ 2 := by omega
      simp [exSynced, h0, h2]
  · refine ⟨[], by decide, by decide, ?_⟩
    intro c
    by_cases h0 : c = 0
    · simp [exSynced, h0]
    · by_cases h2 : c = 2
      · simp [exSynced, h2]
      · simp [exSynced, h0, h2]

/-- C9, instance: channels 0 and 1 of `exSynced` are rebound to flag 2; channel
0 is unlinked from the middle of the list of flag 1. -/
theorem pvSync_keeps_sync_lists_witness :
    SyncedToValid exSynced.prog ∧ SyncInv exSynced.prog ∧
    0 + 2 ≤ exSynced.prog.numChans ∧ 2 ≤ exSynced.prog.numEvFlags ∧
    ∃ ss1, seq_pvSync exSynced 0 2 2 = some ss1 ∧
      SyncInv ss1.prog ∧ SyncedToValid ss1.prog ∧
      (∀ c, 0 ≤ c → c < 0 + 2 → (ss1.prog.chan c).syncedTo = 2) ∧
      (∀ c, ¬ (0 ≤ c ∧ c < 0 + 2) →
        (ss1.prog.chan c).syncedTo = (exSynced.prog.chan c).syncedTo) :=
  ⟨exSynced_valid, exSynced_inv, by decide, by decide,
   pvSync_keeps_sync_lists exSynced 0 2 2 exSynced_valid exSynced_inv (by decide) (by decide)⟩

/-- C10 (as stated, refuted): channel 0 of `exSynced` is already synced to flag
1, whose list is `2 -> 0`; after `seq_pvSync(ss, 0, 1, 1)` followed by
`seq_pvSync(ss, 0, 1, 0)` the list of flag 1 is `2`, not `2 -> 0`. -/
theorem pvSync_unsync_removes_member :
    SyncedList exSynced.prog 1 [2, 0] ∧
    ((seq_pvSync exSynced 0 1 1).bind fun s1 => seq_pvSync s1 0 1 0).isSome = true ∧
    (∀ s2, ((seq_pvSync exSynced 0 1 1).bind fun s1 => seq_pvSync s1 0 1 0) = some s2 →
      SyncedList s2.prog 1 [2] ∧ ¬ SyncedList s2.prog 1 [2, 0]) := by
  refine ⟨by decide, by decide, ?_⟩
  intro s2 hs
  have h1 : (((seq_pvSync exSynced 0 1 1).bind fun s1 => seq_pvSync s1 0 1 0).map fun s =>
      (s.prog.syncedChans 1, (s.prog.chan 2).nextSynced)) = some (some 2, none) := by decide
  rw [hs] at h1
  simp only [Option.map_some', Option.some.injEq, Prod.mk.injEq] at h1
  simp [SyncedList, IsChain, nextOf, h1.1, h1.2]

/-- C10 (amended): in a program whose sync lists are well formed, for every
existing channel `v` and flag `f` in `[1..numEvFlags]` such that `v` is not
already synced to `f`, `seq_pvSync(ss, v, 1, f)` followed by
`seq_pvSync(ss, v, 1, 0)` returns and the list starting at `syncedChans[f]` has
the same members in the same order as before the first call. -/
theorem pvSync_then_unsync_restores_list (ss : SSCB) (v f : Nat)
    (hvalid : SyncedToValid ss.prog) (hinv : SyncInv ss.prog)
    (hv : v < ss.prog.numChans) (hf1 : 1 ≤ f) (hf2 : f ≤ ss.prog.numEvFlags)
    (hne : (ss.prog.chan v).syncedTo ≠ f) :
    ∃ ss1 ss2, seq_pvSync ss v 1 f = some ss1 ∧ seq_pvSync ss1 v 1 0 = some ss2 ∧
      ∃ l, SyncedList ss.prog f l ∧ SyncedList ss2.prog f l := by
  obtain ⟨l, hl, hnd, hm⟩ := hinv f hf1 hf2
  obtain ⟨sp1, hrun1, hinv1, hvalid1, hn1, he1, hst1⟩ :=
    pvSync_body_inv ss.prog v f hinv hvalid hv hf2
  obtain ⟨sp1b, hrun1b, _, _, _, hlists1⟩ := pvSync_body_spec ss.prog v f hinv hvalid hv
  have hsp : sp1b = sp1 := by
    rw [hrun1] at hrun1b
    exact (Option.some.inj hrun1b).symm
  subst hsp
  obtain ⟨sp2, hrun2, _, _, _, hlists2⟩ :=
    pvSync_body_spec sp1b v 0 hinv1 hvalid1 (by omega)
  have hnot : v ∉ l := fun hmem => hne ((hm v).1 hmem).2
  have hl1 : SyncedList sp1b f (v :: l) := by
    have h := hlists1 f l hf1 hf2 hl
    simpa [hne, List.erase_of_not_mem hnot] using h
  have hold : (sp1b.chan v).syncedTo = f := by simp [hst1 v]
  have hl2 : SyncedList sp2 f l := by
    have h := hlists2 f (v :: l) hf1 (by omega) hl1
    have hf0 : f ≠ 0 := by omega
    simpa [hold, hf0] using h
  refine ⟨{ ss with prog := sp1b }, { ss with prog := sp2 }, ?_, ?_, l, hl, hl2⟩
  · simp [seq_pvSync, hf2, pvSync_loop, hrun1]
  · simp [seq_pvSync, pvSync_loop, hrun2]

/-- C10 (amended), instance: channel 1 of `exSynced` (not synced) and flag 1. -/
theorem pvSync_then_unsync_restores_list_witness :
    SyncedToValid exSynced.prog ∧ SyncInv exSynced.prog ∧
    1 < exSynced.prog.numChans ∧ 1 ≤ 1 ∧ 1 ≤ exSynced.prog.numEvFlags ∧
    (exSynced.prog.chan 1).syncedTo ≠ 1 ∧
    ∃ ss1 ss2, seq_pvSync exSynced 1 1 1 = some ss1 ∧ seq_pvSync ss1 1 1 0 = some ss2 ∧
      ∃ l, SyncedList exSynced.prog 1 l ∧ SyncedList ss2.prog 1 l :=
  ⟨exSynced_valid, exSynced_inv, by decide, by decide, by decide, by decide,
   pvSync_then_unsync_restores_list exSynced 1 1 exSynced_valid exSynced_inv
     (by decide) (by decide) (by decide) (by decide)⟩


/-! ## Event-flag bits -/

theorem and_shiftLeft_ne_zero (x k : Nat) : ((x &&& (1 <<< k)) != 0) = x.testBit k := by
  rw [Nat.one_shiftLeft]
  cases h : x.testBit k
  · have hz : x &&& 2 ^ k = 0 := by
      apply Nat.eq_of_testBit_eq
      intro i
      rw [Nat.testBit_and, Nat.testBit_two_pow, Nat.zero_testBit]
      by_cases hki : k = i
      · subst hki; simp [h]
      · simp [hki]
    simp [hz]
  · have hb : (x &&& 2 ^ k).testBit k = true := by
      rw [Nat.testBit_and, h, Nat.testBit_two_pow_self]; rfl
    have hne : x &&& 2 ^ k ≠ 0 := by
      intro hz
      rw [hz, Nat.zero_testBit] at hb
      exact Bool.false_ne_true hb
    simp [hne]

theorem bitTest_eq_testBit (words : Nat → Nat) (n : Nat) :
    bitTest words n = (words (n / NBITS)).testBit (n % NBITS) := by
  simp only [bitTest]
  exact and_shiftLeft_ne_zero _ _

theorem mod_NBITS_lt (n : Nat) : n % NBITS < 32 := Nat.mod_lt n (by decide)

theorem index_ne_of_ne {f g : Nat} (h : f ≠ g) (hw : f / NBITS = g / NBITS) :
    f % NBITS ≠ g % NBITS := by
  intro hm
  apply h
  have h1 := Nat.div_add_mod f NBITS
  have h2 := Nat.div_add_mod g NBITS
  rw [hw, hm] at h1
  omega

theorem bitTest_bitSet (words : Nat → Nat) (f g : Nat) :
    bitTest (bitSet words g) f = if f = g then true else bitTest words f := by
  simp only [bitTest_eq_testBit, bitSet]
  by_cases hfg : f = g
  · subst hfg
    simp [Nat.one_shiftLeft, Nat.testBit_two_pow_self]
  · rw [if_neg hfg]
    by_cases hw : f / NBITS = g / NBITS
    · have hb := index_ne_of_ne hfg hw
      rw [hw, setAt_same, Nat.testBit_or, Nat.one_shiftLeft,
        Nat.testBit_two_pow_of_ne (fun h => hb h.symm), Bool.or_false]
    · rw [setAt_other _ _ _ _ hw]

theorem bitTest_bitClear (words : Nat → Nat) (f g : Nat) :
    bitTest (bitClear words g) f = if f = g then false else bitTest words f := by
  simp only [bitTest_eq_testBit, bitClear]
  have hmask : (4294967295 : Nat) = 2 ^ 32 - 1 := by norm_num
  by_cases hfg : f = g
  · subst hfg
    rw [if_pos rfl, setAt_same, Nat.testBit_and, Nat.testBit_xor, Nat.one_shiftLeft,
      Nat.testBit_two_pow_self, hmask, Nat.testBit_two_pow_sub_one]
    simp [mod_NBITS_lt f]
  · rw [if_neg hfg]
    by_cases hw : f / NBITS = g / NBITS
    · have hb := index_ne_of_ne hfg hw
      rw [hw, setAt_same, Nat.testBit_and, Nat.testBit_xor, Nat.one_shiftLeft,
        Nat.testBit_two_pow_of_ne (fun h => hb h.symm), hmask, Nat.testBit_two_pow_sub_one]
      simp [mod_NBITS_lt f]
    · rw [setAt_other _ _ _ _ hw]


/-! ## Slot and semaphore -/

/-- C11 (code evaluated at the failing input): on the disconnected channel 0
with a get pending (`getReq[0]` recorded, `getSem[0]` taken, so the invariant
holds), a SYNC `seq_pvGet` during whose wait the semaphore is signalled returns
`pvStatDISCONN` with `getReq[0]` still recorded and `getSem[0]` released: a
recorded request no longer implies a taken semaphore.  The same call in ASYNC
mode on the same state with the semaphore free empties the slot. -/
theorem pvGet_sync_breaks_slot_invariant :
    (exPendingDisc.getReq 0 ≠ none → exPendingDisc.getSem 0 = false) ∧
    (seq_pvGet exPendingDisc 0 compType.SYNC 1 { wait1 := SemEnv.signalled }).map
        (fun r => (r.1, r.2.getReq 0, r.2.getSem 0)) =
      some (pvStat.pvStatDISCONN, some { ss := 0, ch := 0 }, true) ∧
    (seq_pvGet { exPendingDisc with getSem := fun _ => true } 0 compType.ASYNC 1 {}).map
        (fun r => (r.1, r.2.getReq 0, r.2.getSem 0)) =
      some (pvStat.pvStatDISCONN, none, true) := by
  decide

/-! ## Completion modes of `seq_pvGet` and `seq_pvPut` -/

/-- C16: `seq_pvGet(ss, v, DEFAULT, tmo)` returns the same status and produces
the same state as `seq_pvGet(ss, v, ASYNC, tmo)` when option `OPT_ASYNC` is set
and as `seq_pvGet(ss, v, SYNC, tmo)` when it is not, for every state, variable,
time-out and behaviour of the environment. -/
theorem pvGet_default_resolution (ss : SSCB) (v : Nat) (tmo : ℚ) (env : PvEnv) :
    seq_pvGet ss v compType.DEFAULT tmo env =
      if optTest ss.prog OPT_ASYNC = true then seq_pvGet ss v compType.ASYNC tmo env
      else seq_pvGet ss v compType.SYNC tmo env := by
  unfold seq_pvGet
  cases hd : (ss.prog.chan v).dbch with
  | none => simp
  | some dbch => cases ho : optTest ss.prog OPT_ASYNC <;> simp

/-- C17: for an assigned variable and `tmo <= 0`, `seq_pvGet(ss, v, SYNC, tmo)`
returns `pvStatERROR` and the state is exactly as before: no semaphore was
waited on, nothing was posted to the transport, `getReq[v]`, `getSem[v]` and
the meta data are unchanged. -/
theorem pvGet_sync_nonpositive_timeout (ss : SSCB) (v : Nat) (tmo : ℚ) (env : PvEnv)
    (hassigned : seq_pvAssigned ss v = true) (htmo : tmo ≤ 0) :
    seq_pvGet ss v compType.SYNC tmo env = some (pvStat.pvStatERROR, ss) := by
  obtain ⟨dbch, hd⟩ := (assigned_iff ss v).1 hassigned
  unfold seq_pvGet
  rw [hd]
  simp [pvGet_acquire, htmo]

/-- C17, instance: `tmo == 0` on the assigned channel 0, even with a get
pending. -/
theorem pvGet_sync_nonpositive_timeout_witness :
    seq_pvAssigned exPending 0 = true ∧ (0 : ℚ) ≤ 0 ∧
    seq_pvGet exPending 0 compType.SYNC 0 {} = some (pvStat.pvStatERROR, exPending) :=
  ⟨by decide, le_refl 0,
   pvGet_sync_nonpositive_timeout exPending 0 0 {} (by decide) (le_refl 0)⟩

/-- C18: on an assigned channel, `seq_pvPut(ss, v, DEFAULT, tmo)` returns for
every `tmo` and transport outcome, its result does not depend on what happens
to the semaphores, `putSem` and `putReq` are unchanged and the only transport
call it can add is the non-blocking put (no request is posted); on a connected
channel it returns exactly the status of that call. -/
theorem pvPut_default_no_tracking (ss : SSCB) (v : Nat) (tmo : ℚ) (env : PvEnv)
    (dbch : DBCHAN) (hd : (ss.prog.chan v).dbch = some dbch) :
    ∃ r, seq_pvPut ss v compType.DEFAULT tmo env = some r ∧
      r.2.putSem = ss.putSem ∧ r.2.putReq = ss.putReq ∧
      (∀ env2 : PvEnv, env2.issue = env.issue →
        seq_pvPut ss v compType.DEFAULT tmo env2 = some r) ∧
      (dbch.connected = false → r.1 = pvStat.pvStatDISCONN ∧ r.2.prog.pvLog = ss.prog.pvLog) ∧
      (dbch.connected = true →
        r.1 = env.issue ∧ r.2.prog.pvLog = ss.prog.pvLog ++ [PvCall.varPutNoBlock v]) := by
  unfold seq_pvPut
  rw [hd]
  cases hc : dbch.connected
  · simp [check_connected, hc]
  · by_cases hi : env.issue = pvStat.pvStatOK
    · simp [check_connected, hc, pvPut_acquire, pvPut_issue, logPv, hi]
    · simp [check_connected, hc, pvPut_acquire, pvPut_issue, logPv, hi]
      intro env2 h2
      simp [h2, hi]

/-- C18, instance: a DEFAULT put on the connected channel 0 while an ASYNC put
is pending, the transport returning `pvStatERROR`. -/
theorem pvPut_default_no_tracking_witness :
    (exPending.prog.chan 0).dbch = some { dbName := "X", connected := true } ∧
    ∃ r, seq_pvPut exPending 0 compType.DEFAULT 0 { issue := pvStat.pvStatERROR } = some r ∧
      r.2.putSem = exPending.putSem ∧ r.2.putReq = exPending.putReq ∧
      (∀ env2 : PvEnv, env2.issue = pvStat.pvStatERROR →
        seq_pvPut exPending 0 compType.DEFAULT 0 env2 = some r) ∧
      ((true : Bool) = false →
        r.1 = pvStat.pvStatDISCONN ∧ r.2.prog.pvLog = exPending.prog.pvLog) ∧
      ((true : Bool) = true →
        r.1 = pvStat.pvStatERROR ∧
        r.2.prog.pvLog = exPending.prog.pvLog ++ [PvCall.varPutNoBlock 0]) :=
  ⟨by decide,
   pvPut_default_no_tracking exPending 0 0 { issue := pvStat.pvStatERROR }
     { dbName := "X", connected := true } (by decide)⟩

/-! ## `seq_delay` -/

/-- Values of `roundDbl`: 1/10 goes to the `double` 0.1, a number half a step
above 1000000000 goes to the even neighbour, the largest finite `double` is
kept, half a step above it is an infinity, and half the least positive
`double` goes to zero. -/
theorem roundDbl_examples :
    roundDbl (1 / 10) = Dbl.fin (3602879701896397 / 36028797018963968) ∧
    roundDbl (1000000000 + 1 / 2 ^ 24) = Dbl.fin 1000000000 ∧
    roundDbl (1000000000 + 3 / 2 ^ 24) = Dbl.fin (1000000000 + 4 / 2 ^ 24) ∧
    roundDbl (2 ^ 1024 - 2 ^ 971) = Dbl.fin (2 ^ 1024 - 2 ^ 971) ∧
    roundDbl (2 ^ 1024 - 2 ^ 970) = Dbl.pinf ∧
    roundDbl (-(2 ^ 1024 - 2 ^ 970)) = Dbl.ninf ∧
    roundDbl (1 / 2 ^ 1075) = Dbl.fin 0 ∧
    roundDbl (-5 / 2) = Dbl.fin (-5 / 2) := by
  refine ⟨?_, ?_, ?_, ?_, ?_, ?_, ?_, ?_⟩ <;> decide!

/-- The function `seq_delay` on finite times whose sum, rounded, is the finite
`double` `te`. -/
theorem seq_delay_fin (ss : SSCB) (t d now te : ℚ) (ht : ss.timeEntered = Dbl.fin t)
    (hsum : roundDbl (t + d) = Dbl.fin te) :
    seq_delay ss (Dbl.fin d) (Dbl.fin now) =
      if te ≤ now then (true, ss)
      else if dblLt (Dbl.fin te) ss.wakeupTime = true then
        (false, { ss with wakeupTime := Dbl.fin te })
      else (false, ss) := by
  simp only [seq_delay, ht, dblAdd, hsum, dblLe]
  by_cases h : te ≤ now <;> simp [h]

/-- C20 (counterexample): state set entered at time 1000000000 with wake-up
time 1000000001, delay `2^-30`, current time 1000000000, all three of them
`double` values.  The exact sum `t + d` is greater than `now`, so the claim
says FALSE; the sum computed in `double` is 1000000000, and `seq_delay` returns
TRUE and leaves `wakeupTime` as it is. -/
theorem delay_rounded_sum_expired :
    roundDbl 1000000000 = Dbl.fin 1000000000 ∧
    roundDbl (1 / 2 ^ 30) = Dbl.fin (1 / 2 ^ 30) ∧
    exDelay.timeEntered = Dbl.fin 1000000000 ∧
    ¬ ((1000000000 : ℚ) + 1 / 2 ^ 30 ≤ 1000000000) ∧
    (seq_delay exDelay (Dbl.fin (1 / 2 ^ 30)) (Dbl.fin 1000000000)).1 = true ∧
    (seq_delay exDelay (Dbl.fin (1 / 2 ^ 30)) (Dbl.fin 1000000000)).2.wakeupTime =
      Dbl.fin 1000000001 := by
  have hs : roundDbl (1000000000 + 1 / 2 ^ 30) = Dbl.fin 1000000000 := by decide!
  have h := seq_delay_fin exDelay 1000000000 (1 / 2 ^ 30) 1000000000 1000000000 rfl hs
  refine ⟨by decide!, by decide!, rfl, by norm_num, ?_, ?_⟩
  · rw [h]; simp
  · rw [h]; simp [exDelay]

/-- C20 (amended): for a state set with finite `timeEntered = t`, every delay
`d` and current time `now`, where `te` is the sum `t + d` rounded to the
nearest `double` (finite): `seq_delay(ss, d)` returns TRUE iff `te <= now`;
when it returns TRUE the state is unchanged; when it returns FALSE the new
`wakeupTime` is `min(w, te)` for a finite wake-up time `w`, is `te` when the
wake-up time is `+infinity`, and nothing else changes.  Where `t + d` is itself
a `double` the call returns TRUE iff `t + d <= now`; with `d = 5` and `t + 5` a
`double` the delay is not expired at `t + 3` and expired at `t + 5`. -/
theorem delay_expiry (ss : SSCB) (t : ℚ) (ht : ss.timeEntered = Dbl.fin t) :
    (∀ d now te : ℚ, roundDbl (t + d) = Dbl.fin te →
      ((seq_delay ss (Dbl.fin d) (Dbl.fin now)).1 = true ↔ te ≤ now) ∧
      ((seq_delay ss (Dbl.fin d) (Dbl.fin now)).1 = true →
        (seq_delay ss (Dbl.fin d) (Dbl.fin now)).2 = ss) ∧
      ((seq_delay ss (Dbl.fin d) (Dbl.fin now)).1 = false →
        (∀ w : ℚ, ss.wakeupTime = Dbl.fin w →
          (seq_delay ss (Dbl.fin d) (Dbl.fin now)).2 =
            { ss with wakeupTime := Dbl.fin (min w te) }) ∧
        (ss.wakeupTime = Dbl.pinf →
          (seq_delay ss (Dbl.fin d) (Dbl.fin now)).2 = { ss with wakeupTime := Dbl.fin te }) ∧
        (ss.wakeupTime = Dbl.ninf ∨ ss.wakeupTime = Dbl.nan →
          (seq_delay ss (Dbl.fin d) (Dbl.fin now)).2 = ss))) ∧
    (∀ d now : ℚ, roundDbl (t + d) = Dbl.fin (t + d) →
      ((seq_delay ss (Dbl.fin d) (Dbl.fin now)).1 = true ↔ t + d ≤ now)) ∧
    (roundDbl (t + 5) = Dbl.fin (t + 5) →
      (seq_delay ss (Dbl.fin 5) (Dbl.fin (t + 3))).1 = false ∧
      (seq_delay ss (Dbl.fin 5) (Dbl.fin (t + 5))).1 = true) := by
  have key : ∀ d now te : ℚ, roundDbl (t + d) = Dbl.fin te →
      ((seq_delay ss (Dbl.fin d) (Dbl.fin now)).1 = true ↔ te ≤ now) := by
    intro d now te hsum
    rw [seq_delay_fin ss t d now te ht hsum]
    by_cases h : te ≤ now
    · simp [h]
    · simp only [h, if_false]
      split <;> simp
  refine ⟨?_, ?_, ?_⟩
  · intro d now te hsum
    refine ⟨key d now te hsum, ?_, ?_⟩
    · intro hex
      have hle := (key d now te hsum).1 hex
      rw [seq_delay_fin ss t d now te ht hsum, if_pos hle]
    · intro hex
      have hlt : ¬ te ≤ now := fun hle => by
        rw [(key d now te hsum).2 hle] at hex; cases hex
      rw [seq_delay_fin ss t d now te ht hsum, if_neg hlt]
      refine ⟨?_, ?_, ?_⟩
      · intro w hw
        obtain ⟨prog, ssNum, getSem, putSem, getReq, putReq, var, metaData, dirty, te0, wk⟩ := ss
        simp only at hw
        subst hw
        by_cases h2 : te < w
        · simp [dblLt, h2, min_eq_right (le_of_lt h2)]
        · simp [dblLt, h2, min_eq_left (not_lt.mp h2)]
      · intro hw
        simp [hw, dblLt]
      · intro hw
        rcases hw with hw | hw <;> simp [hw, dblLt]
  · intro d now hsum
    exact key d now (t + d) hsum
  · intro hsum
    refine ⟨?_, (key 5 (t + 5) (t + 5) hsum).2 le_rfl⟩
    have hn : ¬ (t + 5 ≤ t + 3) := by
      intro hle
      have h53 := (add_le_add_iff_left t).1 hle
      norm_num at h53
    cases hb : (seq_delay ss (Dbl.fin 5) (Dbl.fin (t + 3))).1
    · rfl
    · exact absurd ((key 5 (t + 3) (t + 5) hsum).1 hb) hn

/-- C20 (amended), instance: entered at 1000000000 with wake-up time
1000000001; the delay 5 is not expired at 1000000003 and expired at
1000000005, and the delay 1/2 tested at 1000000000 lowers the wake-up time to
1000000000.5. -/
theorem delay_expiry_witness :
    exDelay.timeEntered = Dbl.fin 1000000000 ∧
    roundDbl (1000000000 + 5) = Dbl.fin (1000000000 + 5) ∧
    (seq_delay exDelay (Dbl.fin 5) (Dbl.fin (1000000000 + 3))).1 = false ∧
    (seq_delay exDelay (Dbl.fin 5) (Dbl.fin (1000000000 + 5))).1 = true ∧
    (seq_delay exDelay (Dbl.fin 5) (Dbl.fin (1000000000 + 5))).2 = exDelay ∧
    (seq_delay exDelay (Dbl.fin (1 / 2)) (Dbl.fin 1000000000)).2 =
      { exDelay with wakeupTime := Dbl.fin (min 1000000001 (1000000000 + 1 / 2)) } := by
  have h := delay_expiry exDelay 1000000000 rfl
  have h5 : roundDbl (1000000000 + 5) = Dbl.fin (1000000000 + 5) := by decide!
  have hh : roundDbl (1000000000 + 1 / 2) = Dbl.fin (1000000000 + 1 / 2) := by decide!
  have a := h.1 5 (1000000000 + 5) (1000000000 + 5) h5
  have b := h.1 (1 / 2) 1000000000 (1000000000 + 1 / 2) hh
  have hb : (seq_delay exDelay (Dbl.fin (1 / 2)) (Dbl.fin 1000000000)).1 = false := by
    cases hx : (seq_delay exDelay (Dbl.fin (1 / 2)) (Dbl.fin 1000000000)).1
    · rfl
    · have hle := b.1.1 hx
      norm_num at hle
  exact ⟨rfl, h5, (h.2.2 h5).1, (h.2.2 h5).2, a.2.1 (h.2.2 h5).2,
    (b.2.2 hb).1 1000000001 rfl⟩

/-! ## Anonymous put and queued channels -/

/-- C14: in safe mode, on a channel that is not assigned to a named PV (and
whose `syncedTo` is 0 or a flag of the program), `seq_pvPut` returns `pvStatOK`
for every completion mode, every `tmo` and every behaviour of the environment,
leaves `putSem` and `putReq` untouched, and if the channel is synced to a flag
`f != 0` then bit `f` of the event-flag bitmap is set on return, whether or not
the channel is queued and its queue full. -/
theorem pvPut_anonymous_safe_mode (ss : SSCB) (v : Nat) (ct : compType) (tmo : ℚ)
    (env : PvEnv) (hsafe : optTest ss.prog OPT_SAFE = true)
    (hanon : seq_pvAssigned ss v = false)
    (hvalid : (ss.prog.chan v).syncedTo ≤ ss.prog.numEvFlags) :
    ∃ ss1, seq_pvPut ss v ct tmo env = some (pvStat.pvStatOK, ss1) ∧
      ss1.putSem = ss.putSem ∧ ss1.putReq = ss.putReq ∧
      ((ss.prog.chan v).syncedTo ≠ 0 →
        bitTest ss1.prog.evFlags (ss.prog.chan v).syncedTo = true) := by
  have hd : (ss.prog.chan v).dbch = none := by
    simpa [seq_pvAssigned] using hanon
  unfold seq_pvPut
  rw [hd]
  simp only [hsafe, if_true]
  by_cases hs : (ss.prog.chan v).syncedTo = 0
  · cases hq : (ss.prog.chan v).queue <;>
      simp [anonymous_put, hq, hs, ss_write_buffer, ss_wakeup]
  · have hpos : 0 < (ss.prog.chan v).syncedTo := Nat.pos_of_ne_zero hs
    cases hq : (ss.prog.chan v).queue <;>
      simp [anonymous_put, hq, hs, ss_write_buffer, ss_wakeup, seq_efSet, hpos, hvalid,
        bitTest_bitSet]

/-- C14, instance: SYNC put with `tmo = 0` on the anonymous channel 0 of
`exAnonQueued`, whose queue is full and which is synced to flag 1. -/
theorem pvPut_anonymous_safe_mode_witness :
    optTest exAnonQueued.prog OPT_SAFE = true ∧ seq_pvAssigned exAnonQueued 0 = false ∧
    (exAnonQueued.prog.chan 0).syncedTo ≤ exAnonQueued.prog.numEvFlags ∧
    ∃ ss1, seq_pvPut exAnonQueued 0 compType.SYNC 0 {} = some (pvStat.pvStatOK, ss1) ∧
      ss1.putSem = exAnonQueued.putSem ∧ ss1.putReq = exAnonQueued.putReq ∧
      ((exAnonQueued.prog.chan 0).syncedTo ≠ 0 →
        bitTest ss1.prog.evFlags (exAnonQueued.prog.chan 0).syncedTo = true) :=
  ⟨by decide, by decide, by decide,
   pvPut_anonymous_safe_mode exAnonQueued 0 compType.SYNC 0 {} (by decide) (by decide)
     (by decide)⟩

/-- C15: on a queued channel (whose request type carries status and time stamp
when it is assigned to a named PV), `seq_pvGetQ` returns TRUE iff the queue
held at least one record before the call and removes the oldest record; if the
channel is synced to a flag `f != 0`, bit `f` is cleared on return when the
queue is empty after the pop and the bitmap is unchanged when it is not; every
other flag is unchanged.  On a channel that is not queued it returns FALSE and
changes nothing. -/
theorem pvGetQ_result (ss : SSCB) (v : Nat) (dec : PvDecode) :
    ((ss.prog.chan v).queue = none → seq_pvGetQ ss v dec = some (false, ss)) ∧
    (∀ q, (ss.prog.chan v).queue = some q →
      (seq_pvAssigned ss v = true → dec.pv_is_time_type v = true) →
      ∃ ss1, seq_pvGetQ ss v dec = some (!q.elems.isEmpty, ss1) ∧
        (ss1.prog.chan v).queue = some { q with elems := q.elems.tail } ∧
        ((ss.prog.chan v).syncedTo ≠ 0 → q.elems.tail = [] →
          bitTest ss1.prog.evFlags (ss.prog.chan v).syncedTo = false) ∧
        (q.elems.tail ≠ [] → ss1.prog.evFlags = ss.prog.evFlags) ∧
        ((ss.prog.chan v).syncedTo = 0 → ss1.prog.evFlags = ss.prog.evFlags) ∧
        (∀ g, g ≠ (ss.prog.chan v).syncedTo →
          bitTest ss1.prog.evFlags g = bitTest ss.prog.evFlags g)) := by
  constructor
  · intro hq
    simp [seq_pvGetQ, hq]
  · intro q hq htype
    obtain ⟨n, elems⟩ := q
    unfold seq_pvGetQ
    simp only [hq]
    cases elems with
    | nil =>
      by_cases hs : (ss.prog.chan v).syncedTo = 0
      · simp [seqQueueGetF, setQueue, seqQueueIsEmpty, hs]
      · simp [seqQueueGetF, setQueue, seqQueueIsEmpty, hs, bitTest_bitClear]
        intro g hg
        simp [hg]
    | cons x rest =>
      have hcp : ∃ s1, getq_cp ss v x dec = some s1 ∧ s1.prog = ss.prog := by
        unfold getq_cp
        cases hd : (ss.prog.chan v).dbch with
        | none => exact ⟨_, rfl, rfl⟩
        | some d =>
          have ht : dec.pv_is_time_type v = true := htype (by simp [seq_pvAssigned, hd])
          simp [ht]
      obtain ⟨s1, hs1, hp1⟩ := hcp
      by_cases hs : (ss.prog.chan v).syncedTo = 0
      · simp [seqQueueGetF, hs1, setQueue, seqQueueIsEmpty, hs, hp1]
      · cases rest with
        | nil =>
          simp [seqQueueGetF, hs1, setQueue, seqQueueIsEmpty, hs, hp1, bitTest_bitClear]
          intro g hg
          simp [hg]
        | cons y rest2 =>
          simp [seqQueueGetF, hs1, setQueue, seqQueueIsEmpty, hs, hp1]

/-- C15, instance: channel 0 of `exAnonQueued` holds two records and is synced
to flag 1. -/
theorem pvGetQ_result_witness :
    (exAnonQueued.prog.chan 0).queue = some { numElems := 2, elems := [1, 2] } ∧
    ∃ ss1, seq_pvGetQ exAnonQueued 0 {} = some (true, ss1) ∧
      (ss1.prog.chan 0).queue = some { numElems := 2, elems := [2] } ∧
      ss1.prog.evFlags = exAnonQueued.prog.evFlags := by
  refine ⟨by decide, ?_⟩
  obtain ⟨ss1, h1, h2, _, h4, _, _⟩ :=
    (pvGetQ_result exAnonQueued 0 {}).2 { numElems := 2, elems := [1, 2] } (by decide)
      (by decide)
  exact ⟨ss1, h1, h2, h4 (by decide)⟩

/-! ## Test, clear, test-and-clear -/

theorem ss_read_buffer_prog (ss : SSCB) (c : Nat) (b : Bool) :
    (ss_read_buffer ss c b).prog = ss.prog := by
  unfold ss_read_buffer
  split <;> rfl

theorem selective_fold_prog (f : Nat) :
    ∀ (l : List Nat) (s : SSCB),
      (l.foldl (fun s c => if (s.prog.chan c).syncedTo = f then ss_read_buffer s c true else s)
        s).prog = s.prog
  | [], _ => rfl
  | c :: l, s => by
    rw [List.foldl_cons, selective_fold_prog f l]
    split
    · exact ss_read_buffer_prog s c true
    · rfl

theorem ss_read_buffer_selective_prog (ss : SSCB) (f : Nat) :
    (ss_read_buffer_selective ss f).prog = ss.prog :=
  selective_fold_prog f _ ss

/-- The selective read does not look at the event flags or at the wake-up log:
replacing them before the read or after it gives the same state. -/
theorem selective_fold_flags (f : Nat) (e : Nat → Nat) (w : List Nat) :
    ∀ (l : List Nat) (s : SSCB),
      l.foldl (fun s c => if (s.prog.chan c).syncedTo = f then ss_read_buffer s c true else s)
          { s with prog := { s.prog with evFlags := e, wakeLog := w } } =
        { (l.foldl (fun s c => if (s.prog.chan c).syncedTo = f then ss_read_buffer s c true
            else s) s) with prog := { s.prog with evFlags := e, wakeLog := w } }
  | [], _ => rfl
  | c :: l, s => by
    rw [List.foldl_cons, List.foldl_cons]
    by_cases hc : (s.prog.chan c).syncedTo = f
    · have hstep : ss_read_buffer { s with prog := { s.prog with evFlags := e, wakeLog := w } }
          c true =
          { (ss_read_buffer s c true) with
            prog := { (ss_read_buffer s c true).prog with evFlags := e, wakeLog := w } } := by
        rw [ss_read_buffer_prog]
        unfold ss_read_buffer
        split <;> rfl
      simp only [hc, if_true]
      rw [hstep, selective_fold_flags f e w l, ss_read_buffer_prog]
    · simp only [hc, if_false]
      rw [selective_fold_flags f e w l]

theorem ss_read_buffer_selective_flags (ss : SSCB) (f : Nat) (e : Nat → Nat) (w : List Nat) :
    ss_read_buffer_selective { ss with prog := { ss.prog with evFlags := e, wakeLog := w } } f =
      { (ss_read_buffer_selective ss f) with
        prog := { ss.prog with evFlags := e, wakeLog := w } } :=
  selective_fold_flags f e w _ ss

/-- C12 (as stated, refuted): on `exFlagsSet`, `seq_efTestAndClear(ss, 1)`
issues no wake-up, whereas `seq_efTest(ss, 1)` followed by `seq_efClear(ss, 1)`
wakes the state sets waiting on flag 1. -/
theorem efTestAndClear_issues_no_wakeup :
    (seq_efTestAndClear exFlagsSet 1).map (fun r => (r.1, r.2.prog.wakeLog)) =
      some (true, []) ∧
    ((seq_efTest exFlagsSet 1).bind fun r => seq_efClear r.2 1).map
        (fun r => (r.1, r.2.prog.wakeLog)) =
      some (true, [1]) := by
  decide

/-- C12 (amended): for every state and flag `f` in `[1..numEvFlags]`,
`seq_efTestAndClear(ss, f)` returns the value `seq_efTest(ss, f)` would return,
and `seq_efTest(ss, f)` followed by `seq_efClear(ss, f)` ends in the state
`seq_efTestAndClear` ends in (same event-flag bitmap, same selective read into
the shadow) with one wake-up for `f` added; `seq_efTestAndClear` itself issues
no wake-up. -/
theorem efTestAndClear_vs_test_then_clear (ss : SSCB) (f : Nat)
    (h1 : 1 ≤ f) (h2 : f ≤ ss.prog.numEvFlags) :
    ∃ b s1 s2 s3,
      seq_efTestAndClear ss f = some (b, s1) ∧ seq_efTest ss f = some (b, s2) ∧
      seq_efClear s2 f = some (b, s3) ∧
      s3 = { s1 with prog := ss_wakeup s1.prog f } ∧
      s1.prog.wakeLog = ss.prog.wakeLog ∧
      s3.prog.evFlags = s1.prog.evFlags ∧ s3.var = s1.var ∧ s3.metaData = s1.metaData ∧
      s3.dirty = s1.dirty := by
  have hv : 0 < f ∧ f ≤ ss.prog.numEvFlags := ⟨h1, h2⟩
  have hsel := ss_read_buffer_selective_prog ss f
  have hfl : ss_read_buffer_selective
      { ss with prog := { ss.prog with evFlags := bitClear ss.prog.evFlags f } } f =
      { (ss_read_buffer_selective ss f) with
        prog := { ss.prog with evFlags := bitClear ss.prog.evFlags f } } :=
    ss_read_buffer_selective_flags ss f (bitClear ss.prog.evFlags f) ss.prog.wakeLog
  have hopt : optTest { ss.prog with evFlags := bitClear ss.prog.evFlags f } OPT_SAFE
      = optTest ss.prog OPT_SAFE := rfl
  cases hs : optTest ss.prog OPT_SAFE
  · refine ⟨bitTest ss.prog.evFlags f,
      { ss with prog := { ss.prog with evFlags := bitClear ss.prog.evFlags f } }, ss,
      { ss with prog := ss_wakeup { ss.prog with evFlags := bitClear ss.prog.evFlags f } f },
      ?_, ?_, ?_, rfl, rfl, rfl, rfl, rfl, rfl⟩
    · simp only [seq_efTestAndClear, hv, and_self, if_true, hopt, hs]
      rfl
    · simp only [seq_efTest, hv, and_self, if_true, hs]
      rfl
    · simp only [seq_efClear, hv, and_self, if_true]
  · refine ⟨bitTest ss.prog.evFlags f,
      { (ss_read_buffer_selective ss f) with
        prog := { ss.prog with evFlags := bitClear ss.prog.evFlags f } },
      ss_read_buffer_selective ss f,
      { (ss_read_buffer_selective ss f) with
        prog := ss_wakeup { ss.prog with evFlags := bitClear ss.prog.evFlags f } f },
      ?_, ?_, ?_, rfl, rfl, rfl, rfl, rfl, rfl⟩
    · simp only [seq_efTestAndClear, hv, and_self, if_true, hopt, hs, hfl]
    · simp only [seq_efTest, hv, and_self, if_true, hs]
    · simp only [seq_efClear, hsel, hv, and_self, if_true]

/-- C12 (amended), instance: flag 1 of `exFlagsSet`. -/
theorem efTestAndClear_vs_test_then_clear_witness :
    1 ≤ 1 ∧ 1 ≤ exFlagsSet.prog.numEvFlags ∧
    ∃ b s1 s2 s3,
      seq_efTestAndClear exFlagsSet 1 = some (b, s1) ∧ seq_efTest exFlagsSet 1 = some (b, s2) ∧
      seq_efClear s2 1 = some (b, s3) ∧
      s3 = { s1 with prog := ss_wakeup s1.prog 1 } ∧
      s1.prog.wakeLog = exFlagsSet.prog.wakeLog ∧
      s3.prog.evFlags = s1.prog.evFlags ∧ s3.var = s1.var ∧ s3.metaData = s1.metaData ∧
      s3.dirty = s1.dirty :=
  ⟨by decide, by decide,
   efTestAndClear_vs_test_then_clear exFlagsSet 1 (by decide) (by decide)⟩

/-! ## Which interface calls touch the event flags -/

theorem pvGet_acquire_prog (ss : SSCB) (v : Nat) (dbch : DBCHAN) (ct : compType) (tmo : ℚ)
    (env : PvEnv) :
    (∀ r, pvGet_acquire ss v dbch ct tmo env = Sum.inl r → r.2.prog = ss.prog) ∧
    (∀ ss1, pvGet_acquire ss v dbch ct tmo env = Sum.inr ss1 → ss1.prog = ss.prog) := by
  obtain ⟨w1, iss, w2⟩ := env
  cases ct <;> cases w1 <;> cases hc : dbch.connected <;> by_cases ht : tmo ≤ 0 <;>
    cases hg : ss.getSem v <;> cases hr : ss.getReq v <;>
    simp [pvGet_acquire, epicsEventWaitWithTimeout, epicsEventTryWait, check_connected,
      hc, ht, hg, hr]

theorem pvGet_issue_evFlags (ss : SSCB) (v : Nat) (dbch : DBCHAN) (ct : compType)
    (env : PvEnv) :
    ∀ r, pvGet_issue ss v dbch ct env = some r → r.2.prog.evFlags = ss.prog.evFlags := by
  obtain ⟨w1, iss, w2⟩ := env
  cases hr : ss.getReq v with
  | some q => simp [pvGet_issue, hr]
  | none =>
    by_cases hi : iss = pvStat.pvStatOK
    · by_cases hct : ct = compType.SYNC
      · cases w2 <;> cases hc : dbch.connected <;> cases hs : optTest ss.prog OPT_SAFE <;>
          cases hg : ss.getSem v <;>
          simp only [optTest] at hs <;>
          simp [pvGet_issue, epicsEventWaitWithTimeout, check_connected, logPv, ss_read_buffer,
            optTest, hr, hi, hct, hc, hs, hg]
      · simp [pvGet_issue, hr, hi, hct, logPv]
    · simp [pvGet_issue, hr, hi, logPv]

theorem seq_pvGet_evFlags (ss : SSCB) (v : Nat) (ct : compType) (tmo : ℚ) (env : PvEnv) :
    ∀ r, seq_pvGet ss v ct tmo env = some r → r.2.prog.evFlags = ss.prog.evFlags := by
  intro r hr
  unfold seq_pvGet at hr
  cases hd : (ss.prog.chan v).dbch with
  | none =>
    rw [hd] at hr
    cases hs : optTest ss.prog OPT_SAFE
    · simp [hs] at hr
      rw [← hr]
    · simp [hs] at hr
      rw [← hr]
      simp [ss_read_buffer_prog]
  | some dbch =>
    rw [hd] at hr
    simp only at hr
    generalize (if ct = compType.DEFAULT then
        (if optTest ss.prog OPT_ASYNC = true then compType.ASYNC else compType.SYNC)
        else ct) = ct1 at hr
    have h := pvGet_acquire_prog ss v dbch ct1 tmo env
    cases hq : pvGet_acquire ss v dbch ct1 tmo env with
    | inl r1 =>
      rw [hq] at hr
      simp only [Option.some.injEq] at hr
      rw [← hr, h.1 r1 hq]
    | inr ss1 =>
      rw [hq] at hr
      simp only at hr
      rw [pvGet_issue_evFlags ss1 v dbch ct1 env r hr, h.2 ss1 hq]

theorem pvGetComplete_body_prog (ss : SSCB) (v : Nat) (e : SemEnv) :
    (pvGetComplete_body ss v e).1.prog = ss.prog := by
  unfold pvGetComplete_body
  cases hd : (ss.prog.chan v).dbch with
  | none => rfl
  | some dbch =>
    cases hr : ss.getReq v with
    | none => simp
    | some q =>
      cases e <;> cases hg : ss.getSem v <;> cases hc : dbch.connected <;>
        cases hs : optTest ss.prog OPT_SAFE <;> simp only [optTest] at hs <;>
        simp [epicsEventTryWait, check_connected, ss_read_buffer, optTest, hc, hs]

theorem pvGetComplete_loop_prog (varId : Nat) (any hasComplete : Bool) (env : Nat → SemEnv) :
    ∀ (rem n : Nat) (ss : SSCB) (a b : Bool) (out : List Bool),
      (pvGetComplete_loop varId any hasComplete env rem n ss a b out).1.prog = ss.prog
  | 0, _, _, _, _, _ => rfl
  | rem + 1, n, ss, a, b, out => by
    unfold pvGetComplete_loop
    simp only
    split
    · rw [pvGetComplete_loop_prog varId any hasComplete env rem, pvGetComplete_body_prog]
    · split
      · exact pvGetComplete_body_prog ss _ _
      · rw [pvGetComplete_loop_prog varId any hasComplete env rem, pvGetComplete_body_prog]

theorem seq_pvGetCancel_prog (ss : SSCB) (varId : Nat) :
    ∀ length, (seq_pvGetCancel ss varId length).prog = ss.prog
  | 0 => rfl
  | length + 1 => by
    unfold seq_pvGetCancel pvGetCancel_body
    split
    · exact seq_pvGetCancel_prog ss varId length
    · exact seq_pvGetCancel_prog ss varId length

theorem pvPutComplete_body_prog (ss : SSCB) (v : Nat) (e : SemEnv) :
    (pvPutComplete_body ss v e).1.prog = ss.prog := by
  unfold pvPutComplete_body
  cases hd : (ss.prog.chan v).dbch with
  | none => rfl
  | some dbch =>
    cases hr : ss.putReq v with
    | none => simp
    | some q =>
      cases e <;> cases hg : ss.putSem v <;> simp [epicsEventTryWait]

theorem pvPutComplete_loop_prog (varId : Nat) (any hasComplete : Bool) (env : Nat → SemEnv) :
    ∀ (rem n : Nat) (ss : SSCB) (a b : Bool) (out : List Bool),
      (pvPutComplete_loop varId any hasComplete env rem n ss a b out).1.prog = ss.prog
  | 0, _, _, _, _, _ => rfl
  | rem + 1, n, ss, a, b, out => by
    unfold pvPutComplete_loop
    simp only
    split
    · rw [pvPutComplete_loop_prog varId any hasComplete env rem, pvPutComplete_body_prog]
    · split
      · exact pvPutComplete_body_prog ss _ _
      · rw [pvPutComplete_loop_prog varId any hasComplete env rem, pvPutComplete_body_prog]

theorem seq_pvPutCancel_prog (ss : SSCB) (varId : Nat) :
    ∀ length, (seq_pvPutCancel ss varId length).prog = ss.prog
  | 0 => rfl
  | length + 1 => by
    unfold seq_pvPutCancel pvPutCancel_body
    split
    · exact seq_pvPutCancel_prog ss varId length
    · exact seq_pvPutCancel_prog ss varId length

theorem anonymous_put_evFlags (ss : SSCB) (v : Nat) :
    ∀ s1, anonymous_put ss v = some s1 →
      s1.prog.evFlags =
        if (ss.prog.chan v).syncedTo ≠ 0 then bitSet ss.prog.evFlags (ss.prog.chan v).syncedTo
        else ss.prog.evFlags := by
  intro s1 h
  unfold anonymous_put at h
  by_cases hs : (ss.prog.chan v).syncedTo = 0
  · cases hq : (ss.prog.chan v).queue <;>
      simp [hq, hs, ss_write_buffer, ss_wakeup] at h <;> rw [← h] <;> simp [hs]
  · by_cases hv : 0 < (ss.prog.chan v).syncedTo ∧ (ss.prog.chan v).syncedTo ≤ ss.prog.numEvFlags
    · cases hq : (ss.prog.chan v).queue <;>
        simp [hq, hs, ss_write_buffer, ss_wakeup, seq_efSet, hv] at h <;> rw [← h] <;> simp [hs]
    · cases hq : (ss.prog.chan v).queue <;>
        simp [hq, hs, ss_write_buffer, ss_wakeup, seq_efSet, hv] at h

theorem pvPut_acquire_prog (ss : SSCB) (v : Nat) (ct : compType) (tmo : ℚ) (env : PvEnv) :
    (∀ r, pvPut_acquire ss v ct tmo env = Sum.inl r → r.2.prog = ss.prog) ∧
    (∀ ss1, pvPut_acquire ss v ct tmo env = Sum.inr ss1 → ss1.prog = ss.prog) := by
  obtain ⟨w1, iss, w2⟩ := env
  cases ct <;> cases w1 <;> by_cases ht : tmo ≤ 0 <;>
    cases hg : ss.putSem v <;> cases hr : ss.putReq v <;>
    simp [pvPut_acquire, epicsEventWaitWithTimeout, epicsEventTryWait, ht, hg, hr]

theorem pvPut_issue_evFlags (ss : SSCB) (v : Nat) (dbch : DBCHAN) (ct : compType)
    (env : PvEnv) :
    ∀ r, pvPut_issue ss v dbch ct env = some r → r.2.prog.evFlags = ss.prog.evFlags := by
  obtain ⟨w1, iss, w2⟩ := env
  by_cases hd : ct = compType.DEFAULT
  · by_cases hi : iss = pvStat.pvStatOK <;> simp [pvPut_issue, hd, hi, logPv]
  · cases hr : ss.putReq v with
    | some q => simp [pvPut_issue, hr, hd]
    | none =>
      by_cases hi : iss = pvStat.pvStatOK
      · by_cases hct : ct = compType.SYNC
        · cases w2 <;> cases hc : dbch.connected <;> cases hg : ss.putSem v <;>
            simp [pvPut_issue, epicsEventWaitWithTimeout, check_connected, logPv,
              hr, hi, hct, hc, hg]
        · simp [pvPut_issue, hr, hi, hct, hd, logPv]
      · simp [pvPut_issue, hr, hi, hd, logPv]

theorem seq_pvPut_evFlags (ss : SSCB) (v : Nat) (ct : compType) (tmo : ℚ) (env : PvEnv) :
    ∀ r, seq_pvPut ss v ct tmo env = some r →
      r.2.prog.evFlags =
        if (ss.prog.chan v).dbch = none ∧ optTest ss.prog OPT_SAFE = true ∧
            (ss.prog.chan v).syncedTo ≠ 0
        then bitSet ss.prog.evFlags (ss.prog.chan v).syncedTo else ss.prog.evFlags := by
  intro r hr
  unfold seq_pvPut at hr
  cases hd : (ss.prog.chan v).dbch with
  | none =>
    rw [hd] at hr
    cases hs : optTest ss.prog OPT_SAFE
    · simp [hs] at hr
      rw [← hr]
      simp
    · simp only [hs, if_true, Option.map_eq_some'] at hr
      obtain ⟨s1, h1, h2⟩ := hr
      rw [← h2]
      simp only [true_and]
      exact anonymous_put_evFlags ss v s1 h1
  | some dbch =>
    rw [hd] at hr
    simp only [reduceCtorEq, false_and, if_false]
    cases hc : dbch.connected
    · simp [check_connected, hc] at hr
      rw [← hr]
    · simp only [check_connected, hc, Bool.not_true, Bool.false_eq_true, if_false, ne_eq,
        not_true_eq_false] at hr
      have h := pvPut_acquire_prog
        { ss with metaData := setAt ss.metaData v (ss.metaData v) } v ct tmo env
      cases hq : pvPut_acquire
          { ss with metaData := setAt ss.metaData v (ss.metaData v) } v ct tmo env with
      | inl r1 =>
        rw [hq] at hr
        simp only [Option.some.injEq] at hr
        rw [← hr, h.1 r1 hq]
      | inr ss1 =>
        rw [hq] at hr
        simp only at hr
        rw [pvPut_issue_evFlags ss1 v dbch ct env r hr, h.2 ss1 hq]

theorem pvAssign_release_shape (sp : PROG) (v : Nat) (d : DBCHAN) (env : AssignEnv) :
    ∃ (c : Nat → CHAN) (a k : Nat) (l : List PvCall),
      (pvAssign_release sp v d env).2.1 =
        { sp with chan := c, assignCount := a, connectCount := k, pvLog := l } := by
  rcases d with ⟨nm, conn, cnt, fr⟩
  cases conn
  · exact ⟨_, _, _, _, rfl⟩
  · cases hm : (sp.chan v).monitored
    · simp only [pvAssign_release, setDbch, setAt_same, hm, if_true, Bool.false_eq_true, if_false]
      exact ⟨_, _, _, _, rfl⟩
    · simp only [pvAssign_release, setDbch, setAt_same, hm, if_true]
      exact ⟨_, _, _, _, rfl⟩

theorem pvAssign_release_evFlags (sp : PROG) (v : Nat) (d : DBCHAN) (env : AssignEnv) :
    (pvAssign_release sp v d env).2.1.evFlags = sp.evFlags := by
  obtain ⟨c, a, k, l, h⟩ := pvAssign_release_shape sp v d env
  rw [h]

theorem seq_pvAssign_shape (ss : SSCB) (v : Nat) (name : String) (env : AssignEnv) :
    ∃ (c : Nat → CHAN) (a k : Nat) (l : List PvCall),
      (seq_pvAssign ss v name env).2.prog =
        { ss.prog with chan := c, assignCount := a, connectCount := k, pvLog := l } := by
  unfold seq_pvAssign
  cases hd : (ss.prog.chan v).dbch with
  | none =>
    simp only [hd]
    split_ifs <;> exact ⟨_, _, _, _, rfl⟩
  | some d =>
    simp only [hd]
    obtain ⟨c, a, k, l, h⟩ := pvAssign_release_shape ss.prog v d env
    generalize pvAssign_release ss.prog v d env = rel at h
    rcases rel with ⟨st, p, d2⟩
    simp only at h
    subst h
    simp only [hd]
    split_ifs <;> exact ⟨_, _, _, _, rfl⟩

theorem seq_pvAssign_evFlags (ss : SSCB) (v : Nat) (name : String) (env : AssignEnv) :
    (seq_pvAssign ss v name env).2.prog.evFlags = ss.prog.evFlags := by
  obtain ⟨c, a, k, l, h⟩ := seq_pvAssign_shape ss v name env
  rw [h]

theorem pvSync_unlink_evFlags (sp : PROG) (tc old : Nat) :
    ∀ sp1, pvSync_unlink sp tc old = some sp1 → sp1.evFlags = sp.evFlags := by
  intro sp1 h
  unfold pvSync_unlink at h
  cases hh : sp.syncedChans old with
  | none => simp [hh] at h
  | some c =>
    rw [hh] at h
    by_cases hc : c = tc
    · simp [hc] at h
      rw [← h]
    · simp only [hc, if_false] at h
      cases hf : findPrev sp.chan tc sp.numChans c with
      | none => simp [hf] at h
      | some p =>
        simp [hf] at h
        rw [← h]

theorem pvSync_body_evFlags (sp : PROG) (tc new : Nat) :
    ∀ sp1, pvSync_body sp tc new = some sp1 → sp1.evFlags = sp.evFlags := by
  intro sp1 h
  unfold pvSync_body at h
  by_cases hsame : (sp.chan tc).syncedTo = new
  · simp [hsame] at h
    rw [← h]
  · simp only [ne_eq, hsame, not_false_eq_true, if_true, Option.map_eq_some'] at h
    obtain ⟨sp0, h0, h1⟩ := h
    have he : sp0.evFlags = sp.evFlags := by
      by_cases hold : (sp.chan tc).syncedTo = 0
      · simp [hold] at h0
        rw [h0]
      · simp only [hold, not_false_eq_true, if_true] at h0
        exact pvSync_unlink_evFlags sp tc _ sp0 h0
    rw [← h1, ← he]
    by_cases hn : new = 0 <;> simp [hn]

theorem pvSync_loop_evFlags (varId new : Nat) :
    ∀ (length : Nat) (sp sp1 : PROG),
      pvSync_loop varId new length sp = some sp1 → sp1.evFlags = sp.evFlags
  | 0, sp, sp1, h => by
    simp [pvSync_loop] at h
    rw [h]
  | length + 1, sp, sp1, h => by
    simp only [pvSync_loop, Option.bind_eq_some] at h
    obtain ⟨sp0, h0, h1⟩ := h
    rw [pvSync_body_evFlags sp0 _ new sp1 h1, pvSync_loop_evFlags varId new length sp sp0 h0]

theorem seq_pvSync_evFlags (ss : SSCB) (varId length new : Nat) :
    ∀ s1, seq_pvSync ss varId length new = some s1 → s1.prog.evFlags = ss.prog.evFlags := by
  intro s1 h
  unfold seq_pvSync at h
  by_cases hn : new ≤ ss.prog.numEvFlags
  · simp only [hn, if_true, Option.map_eq_some'] at h
    obtain ⟨sp, h0, h1⟩ := h
    rw [← h1]
    exact pvSync_loop_evFlags varId new length ss.prog sp h0
  · simp [hn] at h

/-- What `seq_pvGetQ` does to the event flags: nothing, or it clears the flag the
channel is synced to. -/
theorem pvGetQ_flags (ss : SSCB) (v : Nat) (dec : PvDecode) :
    ((ss.prog.chan v).queue = none → seq_pvGetQ ss v dec = some (false, ss)) ∧
    (∀ q, (ss.prog.chan v).queue = some q → ∀ r, seq_pvGetQ ss v dec = some r →
      r.2.prog.evFlags = ss.prog.evFlags ∨
      r.2.prog.evFlags = bitClear ss.prog.evFlags (ss.prog.chan v).syncedTo) := by
  constructor
  · intro hq
    simp [seq_pvGetQ, hq]
  · intro q hq r hr
    unfold seq_pvGetQ at hr
    simp only [hq, Option.map_eq_some'] at hr
    obtain ⟨s1, hs1, hr2⟩ := hr
    have hp : s1.prog = ss.prog := by
      cases hx : (seqQueueGetF q).2.2 with
      | none =>
        rw [hx] at hs1
        simp only [Option.some.injEq] at hs1
        rw [← hs1]
      | some x =>
        rw [hx] at hs1
        simp only at hs1
        unfold getq_cp at hs1
        cases hd : (ss.prog.chan v).dbch with
        | none =>
          rw [hd] at hs1
          simp only [Option.some.injEq] at hs1
          rw [← hs1]
        | some d =>
          rw [hd] at hs1
          simp only at hs1
          split at hs1
          · simp only [Option.some.injEq] at hs1
            rw [← hs1]
          · exact absurd hs1 (by simp)
    rw [← hr2]
    simp only [setQueue, hp]
    split
    · split
      · right; rfl
      · left; rfl
    · left; rfl

/-- One interface call that is neither `seq_efSet` on `f` nor an anonymous put
on a channel synced to `f` leaves a cleared bit `f` cleared. -/
theorem facadeStep_keeps_flag_clear (f : Nat) (s s1 : SSCB) (op : FacadeOp)
    (hquiet : ¬ SetsFlag s f op) (hstep : facadeStep s op = some s1)
    (hclear : bitTest s.prog.evFlags f = false) :
    bitTest s1.prog.evFlags f = false := by
  cases op with
  | opPvGet v ct tmo env =>
    simp only [facadeStep, Option.map_eq_some'] at hstep
    obtain ⟨r, hr, rfl⟩ := hstep
    rw [seq_pvGet_evFlags s v ct tmo env r hr]
    exact hclear
  | opPvGetComplete v len any hasComplete env =>
    simp only [facadeStep, Option.some.injEq] at hstep
    rw [← hstep]
    simp only [seq_pvGetComplete]
    rw [pvGetComplete_loop_prog]
    exact hclear
  | opPvGetCancel v len =>
    simp only [facadeStep, Option.some.injEq] at hstep
    rw [← hstep, seq_pvGetCancel_prog]
    exact hclear
  | opPvPut v ct tmo env =>
    simp only [facadeStep, Option.map_eq_some'] at hstep
    obtain ⟨r, hr, rfl⟩ := hstep
    rw [seq_pvPut_evFlags s v ct tmo env r hr]
    split
    · rename_i hcond
      have hne : f ≠ (s.prog.chan v).syncedTo := by
        intro hf
        exact hquiet ⟨hcond.1, hcond.2.1, hf.symm⟩
      rw [bitTest_bitSet, if_neg hne]
      exact hclear
    · exact hclear
  | opPvPutComplete v len any hasComplete env =>
    simp only [facadeStep, Option.some.injEq] at hstep
    rw [← hstep]
    simp only [seq_pvPutComplete]
    rw [pvPutComplete_loop_prog]
    exact hclear
  | opPvPutCancel v len =>
    simp only [facadeStep, Option.some.injEq] at hstep
    rw [← hstep, seq_pvPutCancel_prog]
    exact hclear
  | opPvAssign v name env =>
    simp only [facadeStep, Option.some.injEq] at hstep
    rw [← hstep, seq_pvAssign_evFlags]
    exact hclear
  | opPvMonitor v st =>
    simp only [facadeStep, Option.some.injEq] at hstep
    rw [← hstep]
    unfold seq_pvMonitor
    cases hd : (s.prog.chan v).dbch <;> cases hs : optTest s.prog OPT_SAFE <;>
      simpa [setMonitored, seq_camonitor, logPv] using hclear
  | opPvStopMonitor v st =>
    simp only [facadeStep, Option.some.injEq] at hstep
    rw [← hstep]
    unfold seq_pvStopMonitor
    cases hd : (s.prog.chan v).dbch <;> cases hs : optTest s.prog OPT_SAFE <;>
      simpa [setMonitored, seq_camonitor, logPv] using hclear
  | opPvSync v len flag =>
    simp only [facadeStep] at hstep
    rw [seq_pvSync_evFlags s v len flag s1 hstep]
    exact hclear
  | opPvFlush =>
    simp only [facadeStep, Option.some.injEq] at hstep
    rw [← hstep]
    exact hclear
  | opEfSet g =>
    have hne : f ≠ g := fun h => hquiet h.symm
    simp only [facadeStep, seq_efSet] at hstep
    split at hstep
    · simp only [Option.some.injEq] at hstep
      rw [← hstep]
      simp only [ss_wakeup]
      rw [bitTest_bitSet, if_neg hne]
      exact hclear
    · exact absurd hstep (by simp)
  | opEfTest g =>
    simp only [facadeStep, seq_efTest, Option.map_eq_some'] at hstep
    obtain ⟨r, hr, rfl⟩ := hstep
    split at hr
    · simp only [Option.some.injEq] at hr
      rw [← hr]
      split
      · rw [ss_read_buffer_selective_prog]
        exact hclear
      · exact hclear
    · exact absurd hr (by simp)
  | opEfClear g =>
    simp only [facadeStep, seq_efClear, Option.map_eq_some'] at hstep
    obtain ⟨r, hr, rfl⟩ := hstep
    split at hr
    · simp only [Option.some.injEq] at hr
      rw [← hr]
      simp only [ss_wakeup]
      rw [bitTest_bitClear]
      split
      · rfl
      · exact hclear
    · exact absurd hr (by simp)
  | opEfTestAndClear g =>
    simp only [facadeStep, seq_efTestAndClear, Option.map_eq_some'] at hstep
    obtain ⟨r, hr, rfl⟩ := hstep
    split at hr
    · simp only [Option.some.injEq] at hr
      rw [← hr]
      have hb : bitTest (bitClear s.prog.evFlags g) f = false := by
        rw [bitTest_bitClear]
        split
        · rfl
        · exact hclear
      split
      · rw [ss_read_buffer_selective_prog]
        exact hb
      · exact hb
    · exact absurd hr (by simp)
  | opPvGetQ v dec =>
    simp only [facadeStep, Option.map_eq_some'] at hstep
    obtain ⟨r, hr, rfl⟩ := hstep
    cases hq : (s.prog.chan v).queue with
    | none =>
      have h0 := (pvGetQ_flags s v dec).1 hq
      rw [h0] at hr
      simp only [Option.some.injEq] at hr
      rw [← hr]
      exact hclear
    | some q =>
      have h0 := (pvGetQ_flags s v dec).2 q hq r hr
      rcases h0 with h0 | h0
      · rw [h0]; exact hclear
      · rw [h0, bitTest_bitClear]
        split
        · rfl
        · exact hclear
  | opPvFlushQ v =>
    simp only [facadeStep, seq_pvFlushQ] at hstep
    cases hq : (s.prog.chan v).queue with
    | none => simp [hq] at hstep
    | some q =>
      simp only [hq, Option.some.injEq] at hstep
      rw [← hstep]
      simp only [setQueue]
      rw [bitTest_bitClear]
      split
      · rfl
      · exact hclear
  | opDelay d now =>
    simp only [facadeStep, Option.some.injEq] at hstep
    rw [← hstep]
    have hp : (seq_delay s d now).2.prog = s.prog := by
      simp only [seq_delay]
      split <;> rfl
    rw [hp]
    exact hclear
  | opExit =>
    simp only [facadeStep, Option.some.injEq] at hstep
    rw [← hstep]
    exact hclear

theorem flagQuietRun_keeps_flag_clear (f : Nat) (s0 s1 : SSCB) (hrun : FlagQuietRun f s0 s1)
    (hclear : bitTest s0.prog.evFlags f = false) : bitTest s1.prog.evFlags f = false := by
  induction hrun with
  | refl => exact hclear
  | step op _ hquiet hstep ih => exact facadeStep_keeps_flag_clear f _ _ op hquiet hstep ih

/-- C13: for every flag `f` in `[1..numEvFlags]`, `seq_efTestAndClear(ss, f)`
returns with bit `f` of the event-flag bitmap false, and the bit is false after
every finite sequence of interface calls none of which is `seq_efSet` on `f` or
an anonymous `seq_pvPut` on a channel synced to `f`.  In particular, in any
state, `seq_efSet`, `seq_efClear`, `seq_efTestAndClear` on a flag `g != f` and
`seq_pvGetQ`, `seq_pvFlushQ` on a channel synced to `g != f` do not change bit
`f`. -/
theorem efTestAndClear_flag_stays_clear (ss : SSCB) (f : Nat)
    (h1 : 1 ≤ f) (h2 : f ≤ ss.prog.numEvFlags) :
    (∃ b s0, seq_efTestAndClear ss f = some (b, s0) ∧
      bitTest s0.prog.evFlags f = false ∧
      ∀ s1, FlagQuietRun f s0 s1 → bitTest s1.prog.evFlags f = false) ∧
    (∀ (s : SSCB) (g : Nat), g ≠ f →
      (∀ s1, seq_efSet s g = some s1 →
        bitTest s1.prog.evFlags f = bitTest s.prog.evFlags f) ∧
      (∀ r, seq_efClear s g = some r →
        bitTest r.2.prog.evFlags f = bitTest s.prog.evFlags f) ∧
      (∀ r, seq_efTestAndClear s g = some r →
        bitTest r.2.prog.evFlags f = bitTest s.prog.evFlags f) ∧
      (∀ v dec r, (s.prog.chan v).syncedTo = g → seq_pvGetQ s v dec = some r →
        bitTest r.2.prog.evFlags f = bitTest s.prog.evFlags f) ∧
      (∀ v s1, (s.prog.chan v).syncedTo = g → seq_pvFlushQ s v = some s1 →
        bitTest s1.prog.evFlags f = bitTest s.prog.evFlags f)) := by
  constructor
  · have hv : 0 < f ∧ f ≤ ss.prog.numEvFlags := ⟨h1, h2⟩
    have hb : bitTest (bitClear ss.prog.evFlags f) f = false := by
      rw [bitTest_bitClear, if_pos rfl]
    have hres : ∃ s0, seq_efTestAndClear ss f = some (bitTest ss.prog.evFlags f, s0) ∧
        s0.prog.evFlags = bitClear ss.prog.evFlags f := by
      simp only [seq_efTestAndClear, hv, and_self, if_true]
      split
      · exact ⟨_, rfl, by rw [ss_read_buffer_selective_prog]⟩
      · exact ⟨_, rfl, rfl⟩
    obtain ⟨s0, hs0, he⟩ := hres
    have hclear : bitTest s0.prog.evFlags f = false := by rw [he]; exact hb
    exact ⟨_, s0, hs0, hclear, fun s1 hrun => flagQuietRun_keeps_flag_clear f s0 s1 hrun hclear⟩
  · intro s g hg
    have hfg : f ≠ g := fun h => hg h.symm
    refine ⟨?_, ?_, ?_, ?_, ?_⟩
    · intro s1 h
      simp only [seq_efSet] at h
      split at h
      · simp only [Option.some.injEq] at h
        rw [← h]
        simp only [ss_wakeup]
        rw [bitTest_bitSet, if_neg hfg]
      · exact absurd h (by simp)
    · intro r h
      simp only [seq_efClear] at h
      split at h
      · simp only [Option.some.injEq] at h
        rw [← h]
        simp only [ss_wakeup]
        rw [bitTest_bitClear, if_neg hfg]
      · exact absurd h (by simp)
    · intro r h
      simp only [seq_efTestAndClear] at h
      split at h
      · simp only [Option.some.injEq] at h
        rw [← h]
        split
        · rw [ss_read_buffer_selective_prog]
          simp only
          rw [bitTest_bitClear, if_neg hfg]
        · simp only
          rw [bitTest_bitClear, if_neg hfg]
      · exact absurd h (by simp)
    · intro v dec r hsync h
      cases hq : (s.prog.chan v).queue with
      | none =>
        rw [(pvGetQ_flags s v dec).1 hq] at h
        simp only [Option.some.injEq] at h
        rw [← h]
      | some q =>
        rcases (pvGetQ_flags s v dec).2 q hq r h with h0 | h0
        · rw [h0]
        · rw [h0, hsync, bitTest_bitClear, if_neg hfg]
    · intro v s1 hsync h
      simp only [seq_pvFlushQ] at h
      cases hq : (s.prog.chan v).queue with
      | none => simp [hq] at h
      | some q =>
        simp only [hq, Option.some.injEq] at h
        rw [← h]
        simp only [setQueue]
        rw [hsync, bitTest_bitClear, if_neg hfg]

/-- C13, instance: on `exFlagsSet` (flags 1 and 2 set), after
`seq_efTestAndClear(ss, 1)` the calls `seq_efSet(ss, 2)` and then
`seq_efClear(ss, 2)` leave bit 1 false. -/
theorem efTestAndClear_flag_stays_clear_witness :
    1 ≤ 1 ∧ 1 ≤ exFlagsSet.prog.numEvFlags ∧
    ∃ b s0, seq_efTestAndClear exFlagsSet 1 = some (b, s0) ∧
      bitTest s0.prog.evFlags 1 = false ∧
      ∀ s1 s2, facadeStep s0 (FacadeOp.opEfSet 2) = some s1 →
        facadeStep s1 (FacadeOp.opEfClear 2) = some s2 →
        bitTest s2.prog.evFlags 1 = false := by
  refine ⟨by decide, by decide, ?_⟩
  obtain ⟨b, s0, h0, hc, hrun⟩ :=
    (efTestAndClear_flag_stays_clear exFlagsSet 1 (by decide) (by decide)).1
  refine ⟨b, s0, h0, hc, ?_⟩
  intro s1 s2 hs1 hs2
  apply hrun
  refine FlagQuietRun.step (FacadeOp.opEfClear 2)
    (FlagQuietRun.step (FacadeOp.opEfSet 2) (FlagQuietRun.refl s0) ?_ hs1) ?_ hs2
  · simp [SetsFlag]
  · simp [SetsFlag]

/-! ## `seq_pvGetComplete` over a range -/

theorem pvGetComplete_body_done (ss : SSCB) (v : Nat) (e : SemEnv) :
    (pvGetComplete_body ss v e).2 = getIsComplete ss v e := by
  unfold pvGetComplete_body getIsComplete
  cases hd : (ss.prog.chan v).dbch with
  | none => simp
  | some dbch =>
    cases hr : ss.getReq v with
    | none => simp
    | some q =>
      cases e <;> cases hg : ss.getSem v <;> cases hc : dbch.connected <;>
        cases hs : optTest ss.prog OPT_SAFE <;> simp only [optTest] at hs <;>
        simp [epicsEventTryWait, check_connected, optTest, hc, hs]

theorem pvGetComplete_body_frame (ss : SSCB) (v u : Nat) (e : SemEnv) (hu : u ≠ v) :
    (pvGetComplete_body ss v e).1.getReq u = ss.getReq u ∧
    (pvGetComplete_body ss v e).1.getSem u = ss.getSem u := by
  unfold pvGetComplete_body
  cases hd : (ss.prog.chan v).dbch with
  | none => exact ⟨rfl, rfl⟩
  | some dbch =>
    cases hr : ss.getReq v with
    | none => simp
    | some q =>
      cases e <;> cases hg : ss.getSem v <;> cases hc : dbch.connected <;>
        cases hs : optTest ss.prog OPT_SAFE <;> simp only [optTest] at hs <;>
        simp [epicsEventTryWait, check_connected, ss_read_buffer, optTest, hc, hs, setAt, hu]

theorem getIsComplete_body (ss : SSCB) (v u : Nat) (e e2 : SemEnv) (hu : u ≠ v) :
    getIsComplete (pvGetComplete_body ss v e).1 u e2 = getIsComplete ss u e2 := by
  unfold getIsComplete
  rw [pvGetComplete_body_prog, (pvGetComplete_body_frame ss v u e hu).1,
    (pvGetComplete_body_frame ss v u e hu).2]

/-- With a `complete` array the loop runs over the whole range; it appends the
completion of each variable, judged in the state at entry, and accumulates
their disjunction and conjunction. -/
theorem pvGetComplete_loop_result (varId : Nat) (any : Bool) (env : Nat → SemEnv) :
    ∀ (rem n : Nat) (ss : SSCB) (a b : Bool) (out : List Bool),
      (pvGetComplete_loop varId any true env rem n ss a b out).2.2.2 =
        out ++ (List.range' n rem).map (fun m => getIsComplete ss (varId + m) (env m)) ∧
      (pvGetComplete_loop varId any true env rem n ss a b out).2.1 =
        (a || ((List.range' n rem).map
          (fun m => getIsComplete ss (varId + m) (env m))).any id) ∧
      (pvGetComplete_loop varId any true env rem n ss a b out).2.2.1 =
        (b && ((List.range' n rem).map
          (fun m => getIsComplete ss (varId + m) (env m))).all id)
  | 0, n, ss, a, b, out => by simp [pvGetComplete_loop]
  | rem + 1, n, ss, a, b, out => by
    have ih := pvGetComplete_loop_result varId any env rem (n + 1)
      (pvGetComplete_body ss (varId + n) (env n)).1
      (a || (pvGetComplete_body ss (varId + n) (env n)).2)
      (b && (pvGetComplete_body ss (varId + n) (env n)).2)
      (out ++ [(pvGetComplete_body ss (varId + n) (env n)).2])
    have hmap : (List.range' (n + 1) rem).map
        (fun m => getIsComplete (pvGetComplete_body ss (varId + n) (env n)).1 (varId + m) (env m))
        = (List.range' (n + 1) rem).map (fun m => getIsComplete ss (varId + m) (env m)) := by
      apply List.map_congr_left
      intro m hm
      have hlt : n + 1 ≤ m := (List.mem_range'_1.1 hm).1
      exact getIsComplete_body ss (varId + n) (varId + m) (env n) (env m) (by omega)
    rw [hmap, pvGetComplete_body_done] at ih
    unfold pvGetComplete_loop
    simp only [if_true, pvGetComplete_body_done, List.range'_succ, List.map_cons, List.any_cons,
      List.all_cons, id_eq]
    refine ⟨?_, ?_, ?_⟩
    · rw [ih.1]; simp
    · rw [ih.2.1, Bool.or_assoc]
    · rw [ih.2.2, Bool.and_assoc]

/-- C19: with a non-NULL `complete` array, `seq_pvGetComplete(ss, base, length,
any, complete)` sets `complete[n]`, for every `n < length`, to whether variable
`base+n` is complete (anonymous channel, no pending request, or completion
semaphore acquired); it returns the conjunction of these values when `any` is
FALSE and their disjunction when `any` is TRUE, hence TRUE resp. FALSE when
`length == 0`. -/
theorem pvGetComplete_range_result (ss : SSCB) (base length : Nat) (any : Bool)
    (env : Nat → SemEnv) :
    (seq_pvGetComplete ss base length any true env).complete =
      (List.range length).map (fun n => getIsComplete ss (base + n) (env n)) ∧
    (∀ n, n < length →
      (seq_pvGetComplete ss base length any true env).complete[n]? =
        some (getIsComplete ss (base + n) (env n))) ∧
    (seq_pvGetComplete ss base length any true env).ret =
      (if any then (seq_pvGetComplete ss base length any true env).complete.any id
       else (seq_pvGetComplete ss base length any true env).complete.all id) ∧
    (seq_pvGetComplete ss base 0 any true env).ret = !any := by
  have h := pvGetComplete_loop_result base any env length 0 ss false true []
  have hc : (seq_pvGetComplete ss base length any true env).complete =
      (List.range length).map (fun n => getIsComplete ss (base + n) (env n)) := by
    simp only [seq_pvGetComplete]
    rw [h.1, List.range_eq_range']
    simp
  refine ⟨hc, ?_, ?_, ?_⟩
  · intro n hn
    rw [hc]
    simp [List.getElem?_map, List.getElem?_range hn]
  · rw [hc]
    simp only [seq_pvGetComplete]
    rw [h.2.1, h.2.2, List.range_eq_range']
    cases any <;> simp
  · cases any <;> simp [seq_pvGetComplete, pvGetComplete_loop]

/-- C19, instance: the three variables of `exMixed` (anonymous, pending,
completed) with `any = FALSE`. -/
theorem pvGetComplete_range_result_witness :
    (seq_pvGetComplete exMixed 0 3 false true (fun _ => SemEnv.silent)).complete
      = [true, false, true] ∧
    (seq_pvGetComplete exMixed 0 3 false true (fun _ => SemEnv.silent)).ret = false ∧
    (seq_pvGetComplete exMixed 0 0 false true (fun _ => SemEnv.silent)).ret = true := by
  have h := pvGetComplete_range_result exMixed 0 3 false (fun _ => SemEnv.silent)
  refine ⟨?_, ?_, ?_⟩
  · rw [h.1]; rfl
  · rw [h.2.2.1, h.1]; rfl
  · exact h.2.2.2

/-! ## The assertion of `seq_pvGet` -/

/-- After `getSem[varId]` was taken in ASYNC mode, the slot `getReq[varId]` is
empty when `seq_pvGet` goes on to record the request. -/
theorem pvGet_acquire_async_slot_empty (ss : SSCB) (varId : Nat) (dbch : DBCHAN) (tmo : ℚ)
    (env : PvEnv) :
    ∀ s1, pvGet_acquire ss varId dbch compType.ASYNC tmo env = Sum.inr s1 →
      s1.getReq varId = none := by
  intro s1 h
  simp only [pvGet_acquire] at h
  rcases hw : env.wait1 <;> cases hs : ss.getSem varId <;> cases hc : dbch.connected <;>
    cases hr : ss.getReq varId <;>
    simp [epicsEventTryWait, check_connected, hw, hs, hc, hr] at h <;>
    (subst h; simp [hr])

/-- With an empty slot the second part of `seq_pvGet` passes the assertion and
returns. -/
theorem pvGet_issue_isSome (ss : SSCB) (varId : Nat) (dbch : DBCHAN) (ct : compType)
    (env : PvEnv) (h : ss.getReq varId = none) :
    (pvGet_issue ss varId dbch ct env).isSome = true := by
  simp only [pvGet_issue, h]
  rcases hi : env.issue <;> cases ct <;> rcases hw : env.wait2 <;>
    cases hs : ss.getSem varId <;> cases hc : dbch.connected <;>
    cases ho : optTest ss.prog OPT_SAFE <;>
    simp [epicsEventWaitWithTimeout, check_connected, logPv, hi, hw, hs, hc, ho, optTest] <;>
    simp_all [optTest]

/-- In ASYNC mode `seq_pvGet` never aborts at its assertion, in any state. -/
theorem seq_pvGet_async_isSome (ss : SSCB) (varId : Nat) (tmo : ℚ) (env : PvEnv) :
    (seq_pvGet ss varId compType.ASYNC tmo env).isSome = true := by
  unfold seq_pvGet
  cases hd : (ss.prog.chan varId).dbch with
  | none => simp only []; split <;> rfl
  | some dbch =>
    simp only [reduceCtorEq, if_false]
    cases ha : pvGet_acquire ss varId dbch compType.ASYNC tmo env with
    | inl r => rfl
    | inr s1 =>
      exact pvGet_issue_isSome s1 varId dbch compType.ASYNC env
        (pvGet_acquire_async_slot_empty ss varId dbch tmo env s1 ha)

/-- When `seq_pvGet` aborts, the variable is assigned, the semaphore was taken
and the slot `getReq[varId]` held a request at the assertion. -/
theorem seq_pvGet_abort_at_assertion (ss : SSCB) (varId : Nat) (ct : compType) (tmo : ℚ)
    (env : PvEnv) (h : (seq_pvGet ss varId ct tmo env).isSome = false) :
    ∃ dbch ct1 s1, (ss.prog.chan varId).dbch = some dbch ∧
      pvGet_acquire ss varId dbch ct1 tmo env = Sum.inr s1 ∧
      (s1.getReq varId).isSome = true := by
  unfold seq_pvGet at h
  cases hd : (ss.prog.chan varId).dbch with
  | none => rw [hd] at h; simp only [] at h; split at h <;> simp at h
  | some dbch =>
    rw [hd] at h
    simp only [] at h
    generalize hct : (if ct = compType.DEFAULT then
        (if optTest ss.prog OPT_ASYNC = true then compType.ASYNC else compType.SYNC)
        else ct) = ct1 at h
    cases ha : pvGet_acquire ss varId dbch ct1 tmo env with
    | inl r => rw [ha] at h; simp at h
    | inr s1 =>
      rw [ha] at h
      simp only [] at h
      refine ⟨dbch, ct1, s1, rfl, ha, ?_⟩
      cases hr : s1.getReq varId with
      | some _ => rfl
      | none =>
        have hi := pvGet_issue_isSome s1 varId dbch ct1 env hr
        rw [hi] at h; cases h

/-- C21 (code evaluated at the failing input): from the initial state
`exAssigned` (all request slots empty, all get semaphores free, channel 0
assigned and connected) an ASYNC `seq_pvGet` on variable 0 followed by the
completion callback for it reaches a state with `getReq[0]` recorded and
`getSem[0]` free.  In that state a SYNC `seq_pvGet` on variable 0 takes the
semaphore, arrives at the assertion `ss->getReq[varId] == NULL` with the slot
still holding the request, and aborts.  The ASYNC call in the same state
empties the slot first and returns `pvStatOK`. -/
theorem pvGet_sync_assertion_fails :
    GetInitial exAssigned ∧
    ∃ s, getRun exAssigned [GetOp.opGet 0 compType.ASYNC 1 {}, GetOp.opCallback 0] = some s ∧
      s.getReq 0 = some { ss := 0, ch := 0 } ∧ s.getSem 0 = true ∧
      (∃ s1, pvGet_acquire s 0 { dbName := "X", connected := true } compType.SYNC 1 {} =
          Sum.inr s1 ∧ s1.getReq 0 = some { ss := 0, ch := 0 }) ∧
      (seq_pvGet s 0 compType.SYNC 1 {}).isSome = false ∧
      (seq_pvGet s 0 compType.ASYNC 1 {}).map (fun r => (r.1, r.2.getReq 0, r.2.getSem 0)) =
        some (pvStat.pvStatOK, some { ss := 0, ch := 0 }, false) := by
  refine ⟨fun _ => ⟨rfl, rfl⟩, _, rfl, ?_, ?_, ⟨_, rfl, ?_⟩, ?_, ?_⟩ <;> decide

end Seq
